import Mathlib

/-!
# Fitcher — verification of the trading-engine specification

Shallow embedding, in Lean 4, of the parts of the Fitcher trading system that
the specification makes precise claims about:

* `src/models/position.js` — long-only position accounting (`Position`);
* `src/models/order.js` — order lifecycle (`Order`);
* the `EnhancedRiskManager` — pre-trade risk checks and circuit breaker;
* the `HistoricalDataIngestor` — gap detection over stored candles;
* `src/services/parquetWriter.js` — candle merge / dedup / sort;
* `src/utils/eventBus.js` — prioritized publish/subscribe;
* `src/services/strategyOptimizer.js` — walk-forward splits;
* `src/services/backtestEngine.js` — the backtest loop.

JavaScript numbers are modelled as rationals (`ℚ`), timestamps as integers
(`ℤ` milliseconds), and JavaScript `undefined` as `Option`.  Functions that
mutate `this` are modelled as state-passing functions.  A JavaScript method
that throws before mutating anything is modelled as returning the state
unchanged (the exception aborts the caller, leaving the object as it was).
-/

namespace Fitcher

/-- JavaScript `x || d` for an optional number: `undefined` and `0` are falsy
and give the default `d`. -/
def jsOr (o : Option ℚ) (d : ℚ) : ℚ :=
  match o with
  | none => d
  | some x => if x = 0 then d else x

/-- JavaScript default parameter `f(x = d)`: only `undefined` takes the
default (`0` does not). -/
def jsDefault (o : Option ℚ) (d : ℚ) : ℚ :=
  match o with
  | none => d
  | some x => x

/-! ## Position (`src/models/position.js`)

Only the numeric fields touched by `addBuyTrade`, `addSellTrade`,
`lockAmount` and `unlockAmount` are modelled; the trade log, timestamps and
logging do not feed back into the accounting. -/

structure Position where
  totalAmount : ℚ
  availableAmount : ℚ
  lockedAmount : ℚ
  averageEntryPrice : ℚ
  totalCost : ℚ
  realizedPnL : ℚ
  totalFees : ℚ
deriving DecidableEq, Repr

/-- The empty position created by the `Position` constructor. -/
def Position.empty : Position :=
  { totalAmount := 0, availableAmount := 0, lockedAmount := 0
    averageEntryPrice := 0, totalCost := 0, realizedPnL := 0, totalFees := 0 }

/-- `Position.addBuyTrade({amount, price, fee})`. -/
def Position.addBuyTrade (p : Position) (amount price fee : ℚ) : Position :=
  let cost := amount * price + fee
  let newTotalCost := p.totalCost + cost
  let newTotalAmount := p.totalAmount + amount
  { p with
    averageEntryPrice := if newTotalAmount > 0 then newTotalCost / newTotalAmount else 0
    totalAmount := newTotalAmount
    availableAmount := p.availableAmount + amount
    totalCost := newTotalCost
    totalFees := p.totalFees + fee }

/-- `Position.addSellTrade({amount, price, fee})`.  Note there is no guard:
the method subtracts `amount` from `totalAmount` and `availableAmount`
unconditionally. -/
def Position.addSellTrade (p : Position) (amount price fee : ℚ) : Position :=
  let proceeds := amount * price - fee
  let costBasis := amount * p.averageEntryPrice
  let realized := proceeds - costBasis
  { p with
    totalAmount := p.totalAmount - amount
    availableAmount := p.availableAmount - amount
    totalCost := max 0 (p.totalCost - costBasis)
    realizedPnL := p.realizedPnL + realized
    totalFees := p.totalFees + fee }

/-- `Position.lockAmount(amount)`: throws (state unchanged) when
`amount > availableAmount`, otherwise moves `amount` from available to
locked. -/
def Position.lockAmount (p : Position) (amount : ℚ) : Position :=
  if amount > p.availableAmount then p
  else { p with
    availableAmount := p.availableAmount - amount
    lockedAmount := p.lockedAmount + amount }

/-- `Position.unlockAmount(amount)`: throws (state unchanged) when
`amount > lockedAmount`, otherwise moves `amount` from locked to
available. -/
def Position.unlockAmount (p : Position) (amount : ℚ) : Position :=
  if amount > p.lockedAmount then p
  else { p with
    lockedAmount := p.lockedAmount - amount
    availableAmount := p.availableAmount + amount }

/-- One operation on a position, as in claim C2. -/
inductive PosOp where
  | buy (amount price fee : ℚ)
  | sell (amount price fee : ℚ)
  | lock (amount : ℚ)
  | unlock (amount : ℚ)
deriving DecidableEq, Repr

/-- Apply one operation. -/
def Position.applyOp (p : Position) : PosOp → Position
  | .buy a pr f => p.addBuyTrade a pr f
  | .sell a pr f => p.addSellTrade a pr f
  | .lock a => p.lockAmount a
  | .unlock a => p.unlockAmount a

/-- Apply a sequence of operations, left to right. -/
def Position.applyOps (p : Position) (ops : List PosOp) : Position :=
  ops.foldl Position.applyOp p

/-- The per-trade constraints of claim C2 as written: every buy and sell has
`amount > 0`, `price > 0`, `fee ≥ 0` (locks and unlocks are unconstrained). -/
def claimTradeOK : PosOp → Prop
  | .buy a pr f => 0 < a ∧ 0 < pr ∧ 0 ≤ f
  | .sell a pr f => 0 < a ∧ 0 < pr ∧ 0 ≤ f
  | .lock _ => True
  | .unlock _ => True

instance : DecidablePred claimTradeOK := by
  intro op; cases op <;> simp only [claimTradeOK] <;> infer_instance

/-- The amended per-operation constraint: additionally, a sell never exceeds
the position's `availableAmount` at the moment it is applied, and lock and
unlock amounts are nonnegative (a negative lock passes the code's guard and
drives `lockedAmount` negative). -/
def amendedOpOK (p : Position) : PosOp → Prop
  | .buy a pr f => 0 < a ∧ 0 < pr ∧ 0 ≤ f
  | .sell a pr f => 0 < a ∧ 0 < pr ∧ 0 ≤ f ∧ a ≤ p.availableAmount
  | .lock a => 0 ≤ a
  | .unlock a => 0 ≤ a

instance (p : Position) : DecidablePred (amendedOpOK p) := by
  intro op; cases op <;> simp only [amendedOpOK] <;> infer_instance

/-- A sequence is valid from `p` when each operation satisfies `amendedOpOK`
in the state it is applied to. -/
def amendedSeqOK : Position → List PosOp → Prop
  | _, [] => True
  | p, op :: rest => amendedOpOK p op ∧ amendedSeqOK (p.applyOp op) rest

instance : ∀ (p : Position) (ops : List PosOp), Decidable (amendedSeqOK p ops)
  | _, [] => .isTrue trivial
  | p, op :: rest =>
      @instDecidableAnd _ _ _ (instDecidableAmendedSeqOK (p.applyOp op) rest)

/-- The invariant of claim C2, strengthened with `0 ≤ availableAmount` and
`0 ≤ lockedAmount` (needed for the induction, and true of the code). -/
def PosInvariant (p : Position) : Prop :=
  p.availableAmount + p.lockedAmount = p.totalAmount ∧
  0 ≤ p.totalAmount ∧ 0 ≤ p.totalCost ∧
  0 ≤ p.availableAmount ∧ 0 ≤ p.lockedAmount

instance : DecidablePred PosInvariant := by
  intro p; simp only [PosInvariant]; infer_instance

/-! ## Order (`src/models/order.js`)

The fields that `updateStatus` and `addTrade` read or write.  The seven
status strings of the code become an enumeration; `'open'` is `opened` and
`'partial'` is `partialFill` (Lean keyword clashes). -/

inductive OrderStatus where
  | pending
  | opened
  | filled
  | partialFill
  | cancelled
  | rejected
  | expired
deriving DecidableEq, Repr

/-- One execution recorded against an order. -/
structure OrderTrade where
  price : ℚ
  amount : ℚ
  fee : ℚ
deriving DecidableEq, Repr

structure Order where
  amount : ℚ
  status : OrderStatus
  filledAmount : ℚ
  remainingAmount : ℚ
  averagePrice : Option ℚ
  fee : ℚ
  trades : List OrderTrade
deriving DecidableEq, Repr

/-- A fresh order from the `Order` constructor: `status = 'pending'`,
`filledAmount = 0`, `remainingAmount = amount`. -/
def Order.create (amount : ℚ) : Order :=
  { amount := amount, status := .pending, filledAmount := 0, remainingAmount := amount
    averagePrice := none, fee := 0, trades := [] }

/-- The optional `updates` argument of `updateStatus`. -/
structure StatusUpdates where
  filledAmount : Option ℚ
  averagePrice : Option ℚ
  fee : Option ℚ
deriving DecidableEq, Repr

/-- `updateStatus` called with no `updates`. -/
def StatusUpdates.empty : StatusUpdates := ⟨none, none, none⟩

/-- `Order.updateStatus(newStatus, updates)`: after checking that the name is
one of the seven valid statuses (always true for the enumeration), the code
assigns `this.status = newStatus` unconditionally and applies the optional
field updates.  No transition validation is performed. -/
def Order.updateStatus (o : Order) (newStatus : OrderStatus) (u : StatusUpdates) : Order :=
  let o1 := { o with status := newStatus }
  let o2 := match u.filledAmount with
    | some fa => { o1 with filledAmount := fa, remainingAmount := o1.amount - fa }
    | none => o1
  let o3 := match u.averagePrice with
    | some ap => { o2 with averagePrice := some ap }
    | none => o2
  match u.fee with
  | some f => { o3 with fee := f }
  | none => o3

/-- `Order.addTrade(trade)`: push the trade, recompute `filledAmount`,
`remainingAmount`, `averagePrice` and `fee` from the whole trade list, then
set status `filled` when `remainingAmount ≤ 0`, else `partial` when
`filledAmount > 0`. -/
def Order.addTrade (o : Order) (t : OrderTrade) : Order :=
  let trades := o.trades ++ [t]
  let totalFilled := (trades.map OrderTrade.amount).sum
  let totalValue := (trades.map (fun tr => tr.price * tr.amount)).sum
  let totalFee := (trades.map OrderTrade.fee).sum
  let o1 : Order := { o with
    trades := trades
    filledAmount := totalFilled
    remainingAmount := o.amount - totalFilled
    averagePrice := if totalFilled > 0 then some (totalValue / totalFilled) else none
    fee := totalFee }
  if o1.remainingAmount ≤ 0 then o1.updateStatus .filled StatusUpdates.empty
  else if o1.filledAmount > 0 then o1.updateStatus .partialFill StatusUpdates.empty
  else o1

/-! ## Walk-forward splits (`src/services/strategyOptimizer.js`) -/

/-- JavaScript `array.slice(start, end)` for nonnegative in-range style
arguments: the elements at indices `start .. end - 1`. -/
def jsSlice {α : Type} (l : List α) (s e : ℕ) : List α :=
  (l.drop s).take (e - s)

/-- `splitSize = Math.floor(totalSize / nSplits)`. -/
def wfSplitSize (n S : ℕ) : ℕ := n / S

/-- `trainSize = Math.floor(splitSize * trainRatio)`. -/
def wfTrainSize (n S : ℕ) (r : ℚ) : ℕ := (⌊(wfSplitSize n S : ℚ) * r⌋).toNat

/-- `testSize = splitSize - trainSize`. -/
def wfTestSize (n S : ℕ) (r : ℚ) : ℕ := wfSplitSize n S - wfTrainSize n S r

/-- `StrategyOptimizer.createWalkForwardSplits(data)` with
`nSplits = S` and `trainRatio = r` (both from the optimizer's config).
Split `i` takes `train = data.slice(i·testSize, i·testSize + trainSize)` and
`test = data.slice(trainEnd, min(trainEnd + testSize, n))`. -/
def createWalkForwardSplits {α : Type} (data : List α) (S : ℕ) (r : ℚ) :
    List (List α × List α) :=
  let totalSize := data.length
  let trainSize := wfTrainSize totalSize S r
  let testSize := wfTestSize totalSize S r
  (List.range S).map (fun i =>
    let startIdx := i * testSize
    let trainEndIdx := startIdx + trainSize
    let testEndIdx := trainEndIdx + testSize
    (jsSlice data startIdx trainEndIdx, jsSlice data trainEndIdx (min testEndIdx totalSize)))

/-! ## Candle storage (`src/services/parquetWriter.js`) and gap detection

An OHLCV candle; `open` is called `opening` (Lean keyword).  Timestamps are
Unix milliseconds. -/

structure Candle where
  timestamp : ℤ
  opening : ℚ
  high : ℚ
  low : ℚ
  close : ℚ
  volume : ℚ
deriving DecidableEq, Repr

/-- Insert a candle into an already-sorted list, after every candle with a
timestamp `≤` its own. -/
def candleInsert (c : Candle) : List Candle → List Candle
  | [] => [c]
  | d :: ds => if c.timestamp < d.timestamp then c :: d :: ds else d :: candleInsert c ds

/-- `merged.sort((a, b) => a.timestamp - b.timestamp)`:
`Array.prototype.sort` is stable (ECMAScript 2019), so this is the stable
sort by ascending timestamp, here as a left fold of stable insertions. -/
def candleSort (l : List Candle) : List Candle :=
  l.foldl (fun acc c => candleInsert c acc) []

/-- The dedup loop of `appendCandles`: walk the merged array keeping the
first candle seen for each timestamp (`seen` is the `Set`). -/
def candleDedup : List Candle → List ℤ → List Candle
  | [], _ => []
  | c :: cs, seen =>
      if c.timestamp ∈ seen then candleDedup cs seen
      else c :: candleDedup cs (c.timestamp :: seen)

/-- The merge-and-rewrite core of `ParquetWriter.appendCandles`: the new file
contents produced from the candles already in the file and the candles being
appended — `[...existingCandles, ...candles]`, stable-sorted by timestamp,
then deduplicated keeping the first occurrence of each timestamp. -/
def appendCandlesMerge (existingCandles candles : List Candle) : List Candle :=
  candleDedup (candleSort (existingCandles ++ candles)) []

/-! ### Gap detection (`HistoricalDataIngestor.detectGaps`) -/

/-- The `units` table of `parseTimeframe`, in milliseconds. -/
inductive TimeframeUnit where
  | minute
  | hour
  | day
  | week
  | month
deriving DecidableEq, Repr

def TimeframeUnit.ms : TimeframeUnit → ℕ
  | .minute => 60 * 1000
  | .hour => 60 * 60 * 1000
  | .day => 24 * 60 * 60 * 1000
  | .week => 7 * 24 * 60 * 60 * 1000
  | .month => 30 * 24 * 60 * 60 * 1000

/-- `parseTimeframe` on an already-matched `"<amount><unit>"` string. -/
def parseTimeframe (amount : ℕ) (unit : TimeframeUnit) : ℕ :=
  amount * unit.ms

/-- `new Date('2020-01-01').getTime()`. -/
def jan2020ms : ℤ := 1577836800000

structure DataGap where
  gapStart : ℤ
  gapEnd : ℤ
deriving DecidableEq, Repr

/-- The neighbour-walking loop of `detectGaps`: for each consecutive pair
with `actualDiff > expectedDiff * 1.5`, report the window
`[prev.timestamp + tf, curr.timestamp − tf]`. -/
def gapScan (tf : ℕ) : List Candle → List DataGap
  | [] => []
  | [_] => []
  | c1 :: c2 :: rest =>
      (if ((c2.timestamp - c1.timestamp : ℤ) : ℚ) > (tf : ℚ) * 1.5 then
        [⟨c1.timestamp + tf, c2.timestamp - tf⟩]
      else []) ++ gapScan tf (c2 :: rest)

/-- `HistoricalDataIngestor.detectGaps(pair, timeframe)` as a function of
what it reads: whether a `DataSource` row exists, whether the Parquet store
reports an available range, the candles `readRange` returns over that range,
the parsed timeframe, and the current time. -/
def detectGaps (hasDataSource hasRange : Bool) (candles : List Candle) (tf : ℕ)
    (now : ℤ) : List DataGap :=
  if hasDataSource = false then [⟨jan2020ms, now⟩]
  else if hasRange = false then []
  else gapScan tf candles

/-! ## Event bus (`src/utils/eventBus.js`)

A subscription for one event; the handler function itself is abstracted by
an oracle `ok : Subscription → Bool` at publish time saying whether the
handler returns normally (`true`) or throws (`false`). -/

structure Subscription where
  id : ℕ
  priority : ℤ
  once : Bool
deriving DecidableEq, Repr

/-- Stable insertion into a priority-descending list: the new subscription
goes before the first strictly lower priority, i.e. after all existing
subscriptions of `≥` priority. -/
def subInsert (s : Subscription) : List Subscription → List Subscription
  | [] => [s]
  | d :: ds => if s.priority > d.priority then s :: d :: ds else d :: subInsert s ds

/-- `handlers.sort((a, b) => b.priority - a.priority)`:
`Array.prototype.sort` is stable, so this is the stable descending sort by
priority, as a left fold of stable insertions. -/
def subSortDesc (l : List Subscription) : List Subscription :=
  l.foldl (fun acc s => subInsert s acc) []

/-- `EventBus.subscribe`: push the subscription, then re-sort by descending
priority. -/
def subscribe (handlers : List Subscription) (s : Subscription) : List Subscription :=
  subSortDesc (handlers ++ [s])

/-- The subscriber list after a sequence of `subscribe` calls on a fresh
event. -/
def subscribeAll (reqs : List Subscription) : List Subscription :=
  reqs.foldl subscribe []

/-- `EventBus.unsubscribe`: remove the first subscription with the given
id (`findIndex` + `splice`), if any. -/
def unsubscribe (handlers : List Subscription) (i : ℕ) : List Subscription :=
  match handlers with
  | [] => []
  | s :: rest => if s.id = i then rest else s :: unsubscribe rest i

/-- The handler loop of `EventBus.publish`: every subscription's handler is
invoked inside a `try`; on normal return `eventsHandled` is incremented and
a `once` subscription is marked for removal; on a throw `errors` is
incremented and the loop continues.  Returns (invoked ids in order,
eventsHandled delta, errors delta, `toRemove`). -/
def publishLoop (ok : Subscription → Bool) :
    List Subscription → List ℕ × ℕ × ℕ × List ℕ
  | [] => ([], 0, 0, [])
  | s :: rest =>
      let r := publishLoop ok rest
      if ok s then
        (s.id :: r.1, r.2.1 + 1, r.2.2.1, if s.once then s.id :: r.2.2.2 else r.2.2.2)
      else
        (s.id :: r.1, r.2.1, r.2.2.1 + 1, r.2.2.2)

structure PublishResult where
  invoked : List ℕ
  handled : ℕ
  errors : ℕ
  remaining : List Subscription
deriving DecidableEq, Repr

/-- `EventBus.publish` on one event: run the handler loop over the current
subscriber list, then remove each `toRemove` id with `unsubscribe`. -/
def publish (handlers : List Subscription) (ok : Subscription → Bool) : PublishResult :=
  let r := publishLoop ok handlers
  { invoked := r.1
    handled := r.2.1
    errors := r.2.2.1
    remaining := r.2.2.2.foldl unsubscribe handlers }

/-- Descending-priority order on subscriptions. -/
def prioGE (a b : Subscription) : Prop := b.priority ≤ a.priority

instance : ∀ a b, Decidable (prioGE a b) := fun a b => by
  simp only [prioGE]; infer_instance

/-! ## Risk manager (`EnhancedRiskManager`)

State for one user (the manager's per-user maps restricted to a single
user).  Times are `ℤ` milliseconds; `today` is the value of
`new Date().toDateString()`, modelled as an integer day stamp. -/

/-- JavaScript `x || d` on a plain number (`0` is falsy). -/
def jsNum (x d : ℚ) : ℚ := if x = 0 then d else x

/-- JavaScript truthiness of an optional number. -/
def jsTruthy (o : Option ℚ) : Bool :=
  match o with
  | none => false
  | some x => decide (x ≠ 0)

structure RiskConfig where
  maxPositionSize : ℚ
  maxTotalExposure : ℚ
  maxConcentration : ℚ
  maxDailyLoss : ℚ
  maxDailyTrades : ℕ
  maxDailyVolume : ℚ
  maxDrawdownPercent : ℚ
  maxConsecutiveLosses : ℕ
  circuitBreakerDuration : ℤ
  tradeCooldownMs : ℤ
  maxSlippagePercent : ℚ
  maxPriceDeviationPercent : ℚ
deriving DecidableEq, Repr

/-- The constructor defaults. -/
def defaultRiskConfig : RiskConfig :=
  { maxPositionSize := 0.2
    maxTotalExposure := 0.8
    maxConcentration := 0.4
    maxDailyLoss := 0.05
    maxDailyTrades := 100
    maxDailyVolume := 100000
    maxDrawdownPercent := 10
    maxConsecutiveLosses := 5
    circuitBreakerDuration := 3600000
    tradeCooldownMs := 1000
    maxSlippagePercent := 2
    maxPriceDeviationPercent := 5 }

structure DailyStats where
  date : ℤ
  tradeCount : ℕ
  volume : ℚ
  fees : ℚ
  realizedPnL : ℚ
deriving DecidableEq, Repr

/-- `createDailyStats()`. -/
def createDailyStats (today : ℤ) : DailyStats :=
  { date := today, tradeCount := 0, volume := 0, fees := 0, realizedPnL := 0 }

structure RiskState where
  initialized : Bool
  dailyStats : DailyStats
  lastTradeTime : Option ℤ
  totalTrades : ℕ
  totalVolume : ℚ
  realizedPnL : ℚ
  initialEquity : ℚ
  peakEquity : ℚ
  consecutiveLosses : ℕ
  breaker : Option ℤ
deriving DecidableEq, Repr

/-- A user with no entry in any of the manager's maps. -/
def freshRiskState : RiskState :=
  { initialized := false, dailyStats := createDailyStats 0, lastTradeTime := none
    totalTrades := 0, totalVolume := 0, realizedPnL := 0, initialEquity := 0
    peakEquity := 0, consecutiveLosses := 0, breaker := none }

/-- `initializeUser(userId, initialEquity = 100000)`: a no-op when the user
is already tracked; `initialEquity` defaults only when `undefined`
(JavaScript default parameter). -/
def initializeUser (s : RiskState) (equity : Option ℚ) (today : ℤ) : RiskState :=
  if s.initialized then s
  else
    { s with
      initialized := true
      dailyStats := createDailyStats today
      lastTradeTime := none
      totalTrades := 0
      totalVolume := 0
      realizedPnL := 0
      initialEquity := jsDefault equity 100000
      peakEquity := jsDefault equity 100000
      consecutiveLosses := 0 }

structure TradeParams where
  amount : Option ℚ
  price : Option ℚ
  hasAsset : Bool
  expectedPrice : Option ℚ
  executionPrice : Option ℚ
  marketPrice : Option ℚ
deriving DecidableEq, Repr

structure Portfolio where
  totalValue : Option ℚ
  totalExposure : Option ℚ
  assetValue : ℚ
deriving DecidableEq, Repr

/-- `(tradeParams.amount || 0) * (tradeParams.price || 0)`. -/
def tradeValueOf (tp : TradeParams) : ℚ :=
  jsOr tp.amount 0 * jsOr tp.price 0

/-- `checkCircuitBreaker(userId)`: blocked while the breaker is younger than
`circuitBreakerDuration`; an expired breaker is deleted and the check
passes. -/
def checkCircuitBreaker (cfg : RiskConfig) (s : RiskState) (now : ℤ) : Bool × RiskState :=
  match s.breaker with
  | none => (true, s)
  | some t =>
      if now - t < cfg.circuitBreakerDuration then (false, s)
      else (true, { s with breaker := none })

/-- `checkDailyLimits(userId, tradeParams)`.  Note the code captures `stats`
BEFORE the stale-date reset and keeps using it: the comparisons below read
the old stats even when the day rolled over. -/
def checkDailyLimits (cfg : RiskConfig) (s : RiskState) (today : ℤ) (tp : TradeParams) :
    Bool × RiskState :=
  let stats := s.dailyStats
  let s1 := if stats.date ≠ today then { s with dailyStats := createDailyStats today } else s
  let tradeValue := tradeValueOf tp
  let dailyLoss := |min 0 stats.realizedPnL|
  let maxLoss := jsNum s.initialEquity 100000 * cfg.maxDailyLoss
  if dailyLoss ≥ maxLoss then (false, s1)
  else if stats.tradeCount ≥ cfg.maxDailyTrades then (false, s1)
  else if stats.volume + tradeValue > cfg.maxDailyVolume then (false, s1)
  else (true, s1)

/-- `checkPositionSize`. -/
def checkPositionSize (cfg : RiskConfig) (tp : TradeParams) (pf : Portfolio) : Bool :=
  let tradeValue := tradeValueOf tp
  let portfolioValue := jsOr pf.totalValue 100000
  if tradeValue / portfolioValue > cfg.maxPositionSize then false else true

/-- `checkTotalExposure`. -/
def checkTotalExposure (cfg : RiskConfig) (tp : TradeParams) (pf : Portfolio) : Bool :=
  let currentExposure := jsOr pf.totalExposure 0
  let newExposure := currentExposure + tradeValueOf tp
  let portfolioValue := jsOr pf.totalValue 100000
  if newExposure / portfolioValue > cfg.maxTotalExposure then false else true

/-- `checkConcentration`: trivially allowed when the trade has no parseable
asset; otherwise bounds `(position value + trade value) / portfolio`. -/
def checkConcentration (cfg : RiskConfig) (tp : TradeParams) (pf : Portfolio) : Bool :=
  if tp.hasAsset = false then true
  else
    let newValue := pf.assetValue + tradeValueOf tp
    let portfolioValue := jsOr pf.totalValue 100000
    if newValue / portfolioValue > cfg.maxConcentration then false else true

/-- `checkCooldown`. -/
def checkCooldown (cfg : RiskConfig) (s : RiskState) (now : ℤ) : Bool :=
  match s.lastTradeTime with
  | none => true
  | some t => if now - t < cfg.tradeCooldownMs then false else true

/-- `checkDrawdown(userId, portfolio)`: raises the peak (and passes) when
equity made a new high, otherwise compares the drawdown percentage with
`maxDrawdownPercent`. -/
def checkDrawdown (cfg : RiskConfig) (s : RiskState) (pf : Portfolio) : Bool × RiskState :=
  let currentEquity := jsOr pf.totalValue 0
  let peak := jsNum s.peakEquity currentEquity
  if currentEquity > peak then (true, { s with peakEquity := currentEquity })
  else
    let drawdown := peak - currentEquity
    let drawdownPercent := drawdown / peak * 100
    if drawdownPercent ≥ cfg.maxDrawdownPercent then (false, s) else (true, s)

/-- `checkConsecutiveLosses`. -/
def checkConsecutiveLosses (cfg : RiskConfig) (s : RiskState) : Bool :=
  if s.consecutiveLosses ≥ cfg.maxConsecutiveLosses then false else true

/-- `checkSlippage`: trivially allowed unless both expected and execution
prices are truthy. -/
def checkSlippage (cfg : RiskConfig) (tp : TradeParams) : Bool :=
  if !(jsTruthy tp.expectedPrice) || !(jsTruthy tp.executionPrice) then true
  else
    let expected := tp.expectedPrice.getD 0
    let slippage := |tp.executionPrice.getD 0 - expected| / expected
    if slippage > cfg.maxSlippagePercent / 100 then false else true

/-- `checkPriceDeviation`: trivially allowed unless both limit price and
market price are truthy. -/
def checkPriceDeviation (cfg : RiskConfig) (tp : TradeParams) : Bool :=
  if !(jsTruthy tp.price) || !(jsTruthy tp.marketPrice) then true
  else
    let market := tp.marketPrice.getD 0
    let deviation := |tp.price.getD 0 - market| / market
    if deviation > cfg.maxPriceDeviationPercent / 100 then false else true

/-- The ten check names, in the evaluation/object order of `checkTrade`. -/
inductive CheckName where
  | circuitBreaker
  | dailyLimits
  | positionSize
  | exposure
  | concentration
  | cooldown
  | drawdown
  | consecutiveLosses
  | slippage
  | priceDeviation
deriving DecidableEq, Repr

def checkNamesInOrder : List CheckName :=
  [.circuitBreaker, .dailyLimits, .positionSize, .exposure, .concentration,
    .cooldown, .drawdown, .consecutiveLosses, .slippage, .priceDeviation]

/-- `['drawdown', 'consecutiveLosses', 'dailyLimits'].includes(f.check)`. -/
def criticalCheck : CheckName → Bool
  | .drawdown => true
  | .consecutiveLosses => true
  | .dailyLimits => true
  | _ => false

/-- The `allowed` flag of each of the ten checks of one `checkTrade`
call. -/
structure CheckOutcomes where
  circuitBreaker : Bool
  dailyLimits : Bool
  positionSize : Bool
  exposure : Bool
  concentration : Bool
  cooldown : Bool
  drawdown : Bool
  consecutiveLosses : Bool
  slippage : Bool
  priceDeviation : Bool
deriving DecidableEq, Repr

def CheckOutcomes.get (c : CheckOutcomes) : CheckName → Bool
  | .circuitBreaker => c.circuitBreaker
  | .dailyLimits => c.dailyLimits
  | .positionSize => c.positionSize
  | .exposure => c.exposure
  | .concentration => c.concentration
  | .cooldown => c.cooldown
  | .drawdown => c.drawdown
  | .consecutiveLosses => c.consecutiveLosses
  | .slippage => c.slippage
  | .priceDeviation => c.priceDeviation

structure CheckTradeResult where
  allowed : Bool
  checks : CheckOutcomes
  failedChecks : List CheckName
deriving DecidableEq, Repr

/-- `triggerCircuitBreaker(userId, reasons)` (state part). -/
def triggerCircuitBreaker (s : RiskState) (now : ℤ) : RiskState :=
  { s with breaker := some now }

/-- `EnhancedRiskManager.checkTrade(userId, tradeParams, portfolio)`:
initialize the user, evaluate the ten checks in object order (threading the
state mutations of `checkCircuitBreaker`, `checkDailyLimits` and
`checkDrawdown`), collect the failures, and trigger the circuit breaker when
a failed check is critical. -/
def checkTrade (cfg : RiskConfig) (s0 : RiskState) (now today : ℤ) (tp : TradeParams)
    (pf : Portfolio) : CheckTradeResult × RiskState :=
  let s1 := initializeUser s0 pf.totalValue today
  let bCB := (checkCircuitBreaker cfg s1 now).1
  let s2 := (checkCircuitBreaker cfg s1 now).2
  let bDL := (checkDailyLimits cfg s2 today tp).1
  let s3 := (checkDailyLimits cfg s2 today tp).2
  let bPS := checkPositionSize cfg tp pf
  let bEX := checkTotalExposure cfg tp pf
  let bCO := checkConcentration cfg tp pf
  let bCD := checkCooldown cfg s3 now
  let bDD := (checkDrawdown cfg s3 pf).1
  let s4 := (checkDrawdown cfg s3 pf).2
  let bCL := checkConsecutiveLosses cfg s4
  let bSL := checkSlippage cfg tp
  let bPD := checkPriceDeviation cfg tp
  let checks : CheckOutcomes := ⟨bCB, bDL, bPS, bEX, bCO, bCD, bDD, bCL, bSL, bPD⟩
  let failed := checkNamesInOrder.filter (fun n => !(checks.get n))
  let allowed := failed.isEmpty
  let critical := failed.filter criticalCheck
  let s5 := if allowed = false ∧ critical ≠ [] then triggerCircuitBreaker s4 now else s4
  ({ allowed := allowed, checks := checks, failedChecks := failed }, s5)

/-- The order fields `handleTrade` reads from a `trading:orderFilled`
event. -/
structure FilledOrder where
  filledAmount : Option ℚ
  averagePrice : Option ℚ
  fee : Option ℚ
  realizedPnL : Option ℚ
deriving DecidableEq, Repr

/-- `EnhancedRiskManager.handleTrade`: update daily stats, stamp the
cooldown clock, and track realized PnL and consecutive losses (the PnL
branch is skipped for a falsy `realizedPnL`). -/
def handleTrade (s0 : RiskState) (o : FilledOrder) (now today : ℤ) : RiskState :=
  let s := initializeUser s0 none today
  let tradeValue := jsOr o.filledAmount 0 * jsOr o.averagePrice 0
  let s := { s with
    dailyStats := { s.dailyStats with
      tradeCount := s.dailyStats.tradeCount + 1
      volume := s.dailyStats.volume + tradeValue
      fees := s.dailyStats.fees + jsOr o.fee 0 }
    lastTradeTime := some now }
  if jsTruthy o.realizedPnL then
    let pnl := o.realizedPnL.getD 0
    { s with
      dailyStats := { s.dailyStats with realizedPnL := s.dailyStats.realizedPnL + pnl }
      realizedPnL := s.realizedPnL + pnl
      consecutiveLosses := if pnl < 0 then s.consecutiveLosses + 1 else 0 }
  else s

/-- The spec's scenario for claim C4: initialize with equity 100000, then a
fill whose realized PnL is −5100 (recorded at time 0 of day 0). -/
def scenarioState : RiskState :=
  handleTrade (initializeUser freshRiskState (some 100000) 0)
    ⟨some 0, some 0, some 0, some (-5100)⟩ 0 0

/-- A trade-parameters object carrying no sizes or prices. -/
def scenarioTP : TradeParams := ⟨none, none, false, none, none, none⟩

/-- A portfolio worth 100000 with no exposure. -/
def scenarioPF : Portfolio := ⟨some 100000, none, 0⟩

/-! ## Backtest engine (`src/services/backtestEngine.js`)

All arithmetic is on `ℚ`; `Math.sqrt` is abstracted as an explicit function
parameter `sqrtFn : ℚ → ℚ` (a fixed deterministic function, as in
JavaScript), so every statement below holds for the real square root in
particular. -/

/-- JavaScript `s || d` on an optional string (the empty string is
falsy). -/
def jsOrStr (o : Option String) (d : String) : String :=
  match o with
  | none => d
  | some s => if s = "" then d else s

/-- `pair.split('/')[0]`. -/
def pairBase (p : String) : String := (p.splitOn "/").headD ""

structure BTConfig where
  initialBalance : ℚ
  makerFee : ℚ
  takerFee : ℚ
  slippageModel : String
  slippageBps : ℚ
  enableLogging : Bool
deriving DecidableEq, Repr

/-- The `BacktestEngine` constructor defaults. -/
def defaultBTConfig : BTConfig :=
  { initialBalance := 10000, makerFee := 0.001, takerFee := 0.002
    slippageModel := "fixed", slippageBps := 5, enableLogging := true }

/-- An OHLCV candle as consumed by the backtest engine (`candle.pair` is
optional and defaults to `'BTC/USD'`). -/
structure BTCandle where
  timestamp : ℤ
  opening : ℚ
  high : ℚ
  low : ℚ
  close : ℚ
  volume : ℚ
  pair : Option String
deriving DecidableEq, Repr

structure BollingerBands where
  upper : ℚ
  middle : ℚ
  lower : ℚ
deriving DecidableEq, Repr

structure Indicators where
  sma20 : Option ℚ
  sma50 : Option ℚ
  ema12 : Option ℚ
  ema26 : Option ℚ
  rsi : Option ℚ
  bb : Option BollingerBands
deriving DecidableEq, Repr

/-- `calculateSMA(data, period)`: mean of the last `period` values, `null`
when there are fewer. -/
def calculateSMA (data : List ℚ) (period : ℕ) : Option ℚ :=
  if data.length < period then none
  else some ((data.drop (data.length - period)).sum / (period : ℚ))

/-- `calculateEMA(data, period)`: seeded with the SMA of the first `period`
values, then folded over the rest with `k = 2/(period+1)`. -/
def calculateEMA (data : List ℚ) (period : ℕ) : Option ℚ :=
  if data.length < period then none
  else
    let k : ℚ := 2 / (period + 1)
    let ema0 := (data.take period).sum / (period : ℚ)
    some ((data.drop period).foldl (fun ema x => x * k + ema * (1 - k)) ema0)

/-- `calculateRSI(data, period)`: gains and losses over the last `period`
one-step changes. -/
def calculateRSI (data : List ℚ) (period : ℕ) : Option ℚ :=
  if data.length < period + 1 then none
  else
    let n := data.length
    let changes := (List.range period).map
      (fun i => data.getD (n - (i + 1)) 0 - data.getD (n - (i + 1) - 1) 0)
    let gains := (changes.map (fun c => max c 0)).sum
    let losses := (changes.map (fun c => max (-c) 0)).sum
    let avgGain := gains / (period : ℚ)
    let avgLoss := losses / (period : ℚ)
    if avgLoss = 0 then some 100
    else some (100 - 100 / (1 + avgGain / avgLoss))

/-- `calculateBollingerBands(data, period, stdDev)`: note the
`if (!sma) return null` guard is JavaScript-truthy, so an SMA of exactly `0`
also yields `null`. -/
def calculateBollingerBands (sqrtFn : ℚ → ℚ) (data : List ℚ) (period : ℕ) (stdDev : ℚ) :
    Option BollingerBands :=
  match calculateSMA data period with
  | none => none
  | some sma =>
      if sma = 0 then none
      else
        let squaredDiffs := (data.drop (data.length - period)).map
          (fun price => (price - sma) ^ (2 : ℕ))
        let variance := squaredDiffs.sum / (period : ℚ)
        let std := sqrtFn variance
        some { upper := sma + stdDev * std, middle := sma, lower := sma - stdDev * std }

/-- `calculateIndicators(candles)`. -/
def calculateIndicators (sqrtFn : ℚ → ℚ) (candles : List BTCandle) : Indicators :=
  let closes := candles.map BTCandle.close
  { sma20 := calculateSMA closes 20
    sma50 := calculateSMA closes 50
    ema12 := calculateEMA closes 12
    ema26 := calculateEMA closes 26
    rsi := calculateRSI closes 14
    bb := calculateBollingerBands sqrtFn closes 20 2 }

structure MarketData where
  timestamp : ℤ
  pair : String
  price : ℚ
  opening : ℚ
  high : ℚ
  low : ℚ
  close : ℚ
  volume : ℚ
  recentCandles : List BTCandle
  indicators : Indicators
deriving DecidableEq, Repr

/-- `formatMarketData(candle, allData, index)`. -/
def formatMarketData (sqrtFn : ℚ → ℚ) (candle : BTCandle) (allData : List BTCandle)
    (index : ℕ) : MarketData :=
  let recentCandles := jsSlice allData (index - 20) (index + 1)
  { timestamp := candle.timestamp
    pair := jsOrStr candle.pair "BTC/USD"
    price := candle.close
    opening := candle.opening
    high := candle.high
    low := candle.low
    close := candle.close
    volume := candle.volume
    recentCandles := recentCandles
    indicators := calculateIndicators sqrtFn recentCandles }

/-- `calculateVolatility(marketData)`. -/
def calculateVolatility (sqrtFn : ℚ → ℚ) (recentCandles : List BTCandle) : ℚ :=
  if recentCandles.length < 2 then 0
  else
    let closes := recentCandles.map BTCandle.close
    let returns := (List.range (closes.length - 1)).map
      (fun i => (closes.getD (i + 1) 0 - closes.getD i 0) / closes.getD i 0)
    let mean := returns.sum / (returns.length : ℚ)
    let variance := (returns.map (fun r => (r - mean) ^ (2 : ℕ))).sum / (returns.length : ℚ)
    sqrtFn variance

/-- The signal object a strategy returns from `generateSignal`. -/
structure Signal where
  action : String
  amount : Option ℚ
  price : Option ℚ
  confidence : Option ℚ
  reason : Option String
deriving DecidableEq, Repr

/-- One entry of the `signals` array collected by `run`. -/
structure SignalRec where
  timestamp : ℤ
  action : String
  price : ℚ
  confidence : Option ℚ
  reason : Option String
deriving DecidableEq, Repr

/-- One entry of `this.trades` (`totalCost` for buys, `netProceeds` for
sells). -/
structure BTrade where
  timestamp : ℤ
  side : String
  asset : String
  amount : ℚ
  price : ℚ
  fee : ℚ
  totalCost : Option ℚ
  netProceeds : Option ℚ
  balance : ℚ
deriving DecidableEq, Repr

structure EquityPoint where
  timestamp : ℤ
  balance : ℚ
  holdingsValue : ℚ
  totalEquity : ℚ
deriving DecidableEq, Repr

/-- The engine's mutable state after `reset()`: balance, holdings (a Map in
insertion order), trades and equity curve. -/
structure BTState where
  balance : ℚ
  holdings : List (String × ℚ)
  trades : List BTrade
  equityCurve : List EquityPoint
deriving DecidableEq, Repr

def initialBTState (cfg : BTConfig) : BTState :=
  { balance := cfg.initialBalance, holdings := [], trades := [], equityCurve := [] }

/-- `this.holdings.get(asset) || 0`. -/
def holdingsGet (m : List (String × ℚ)) (k : String) : ℚ :=
  (m.lookup k).getD 0

/-- `this.holdings.set(asset, v)` — updates in place, JavaScript `Map`
insertion order preserved. -/
def holdingsSet (m : List (String × ℚ)) (k : String) (v : ℚ) : List (String × ℚ) :=
  if (m.lookup k).isSome then m.map (fun p => if p.1 = k then (k, v) else p)
  else m ++ [(k, v)]

/-- `normalizeAmount(amount, price)`: `undefined/null` is 0; an amount in
`(0, 1]` is a fraction of the current balance. -/
def normalizeAmount (balance : ℚ) (amount : Option ℚ) (price : ℚ) : ℚ :=
  match amount with
  | none => 0
  | some a => if 0 < a ∧ a ≤ 1 then balance * a / price else a

/-- `executeBuy`: skipped when the cost (with taker fee) exceeds the
balance. -/
def executeBuy (cfg : BTConfig) (st : BTState) (asset : String) (price amount : ℚ)
    (ts : ℤ) : BTState :=
  let cost := amount * price
  let fee := cost * cfg.takerFee
  let totalCost := cost + fee
  if totalCost > st.balance then st
  else
    let bal := st.balance - totalCost
    let t : BTrade :=
      { timestamp := ts
        side := "buy"
        asset := asset
        amount := amount
        price := price
        fee := fee
        totalCost := some totalCost
        netProceeds := none
        balance := bal }
    { st with
      balance := bal
      holdings := holdingsSet st.holdings asset (holdingsGet st.holdings asset + amount)
      trades := st.trades ++ [t] }

/-- `executeSell`: skipped when the holdings are insufficient. -/
def executeSell (cfg : BTConfig) (st : BTState) (asset : String) (price amount : ℚ)
    (ts : ℤ) : BTState :=
  let currentAmount := holdingsGet st.holdings asset
  if amount > currentAmount then st
  else
    let proceeds := amount * price
    let fee := proceeds * cfg.takerFee
    let netProceeds := proceeds - fee
    let bal := st.balance + netProceeds
    let t : BTrade :=
      { timestamp := ts
        side := "sell"
        asset := asset
        amount := amount
        price := price
        fee := fee
        totalCost := none
        netProceeds := some netProceeds
        balance := bal }
    { st with
      balance := bal
      holdings := holdingsSet st.holdings asset (currentAmount - amount)
      trades := st.trades ++ [t] }

/-- `calculateExecutionPrice(side, targetPrice, marketData)`. -/
def calculateExecutionPrice (cfg : BTConfig) (sqrtFn : ℚ → ℚ) (side : String)
    (targetPrice : ℚ) (recentCandles : List BTCandle) : ℚ :=
  if cfg.slippageModel = "none" then targetPrice
  else
    let slippage :=
      if cfg.slippageModel = "fixed" then cfg.slippageBps / 10000
      else if cfg.slippageModel = "dynamic" then
        cfg.slippageBps / 10000 * (1 + calculateVolatility sqrtFn recentCandles)
      else 0
    if side = "buy" then targetPrice * (1 + slippage) else targetPrice * (1 - slippage)

/-- `executeSignal(signal, candle, marketData)`. -/
def executeSignal (cfg : BTConfig) (sqrtFn : ℚ → ℚ) (st : BTState) (sig : Signal)
    (candle : BTCandle) (md : MarketData) : BTState :=
  let executionPrice := calculateExecutionPrice cfg sqrtFn sig.action
    (jsOr sig.price candle.close) md.recentCandles
  let normalizedAmount := normalizeAmount st.balance sig.amount executionPrice
  let asset := pairBase md.pair
  if normalizedAmount ≤ 0 then st
  else if sig.action = "buy" then executeBuy cfg st asset executionPrice normalizedAmount
    candle.timestamp
  else if sig.action = "sell" then executeSell cfg st asset executionPrice normalizedAmount
    candle.timestamp
  else st

/-- `recordEquity(timestamp, currentPrice)`: every held asset is valued at
the same `currentPrice`. -/
def recordEquity (st : BTState) (ts : ℤ) (currentPrice : ℚ) : BTState :=
  let holdingsValue := (st.holdings.map (fun p => p.2 * currentPrice)).sum
  { st with equityCurve := st.equityCurve
      ++ [{ timestamp := ts, balance := st.balance, holdingsValue := holdingsValue
            totalEquity := st.balance + holdingsValue }] }

/-- `closeAllPositions(lastCandle)`: sell every positive holding at the last
close. -/
def closeAllPositions (cfg : BTConfig) (st : BTState) (lastCandle : BTCandle) : BTState :=
  st.holdings.foldl
    (fun acc p =>
      if p.2 > 0 then executeSell cfg acc p.1 lastCandle.close p.2 lastCandle.timestamp
      else acc)
    st

/-- The per-candle body of `run`: generate a signal, record and execute it
unless it is `hold`, then record equity. -/
def runStep (cfg : BTConfig) (sqrtFn : ℚ → ℚ) (strategy : MarketData → Signal)
    (data : List BTCandle) (acc : BTState × List SignalRec) (i : ℕ) (candle : BTCandle) :
    BTState × List SignalRec :=
  let md := formatMarketData sqrtFn candle data i
  let sig := strategy md
  let rec1 : SignalRec :=
    { timestamp := candle.timestamp
      action := sig.action
      price := jsOr sig.price candle.close
      confidence := sig.confidence
      reason := sig.reason }
  let acc1 :=
    if sig.action ≠ "hold" then
      (executeSignal cfg sqrtFn acc.1 sig candle md, acc.2 ++ [rec1])
    else acc
  (recordEquity acc1.1 candle.timestamp candle.close, acc1.2)

structure DrawdownPoint where
  timestamp : ℤ
  peak : ℚ
  equity : ℚ
  drawdown : ℚ
  drawdownPercent : ℚ
deriving DecidableEq, Repr

/-- `calculateDrawdowns()`: running peak, max drawdown and the per-point
series. -/
def calculateDrawdowns (cfg : BTConfig) (st : BTState) : ℚ × ℚ × List DrawdownPoint :=
  let peak0 := jsOr (st.equityCurve.head?.map EquityPoint.totalEquity) cfg.initialBalance
  let r := st.equityCurve.foldl
    (fun (acc : ℚ × ℚ × ℚ × List DrawdownPoint) pt =>
      let peak := if pt.totalEquity > acc.1 then pt.totalEquity else acc.1
      let drawdown := peak - pt.totalEquity
      let drawdownPercent := drawdown / peak * 100
      let maxDD := if drawdown > acc.2.1 then drawdown else acc.2.1
      let maxDDP := if drawdown > acc.2.1 then drawdownPercent else acc.2.2.1
      let point : DrawdownPoint :=
        { timestamp := pt.timestamp
          peak := peak
          equity := pt.totalEquity
          drawdown := drawdown
          drawdownPercent := drawdownPercent }
      (peak, maxDD, maxDDP, acc.2.2.2 ++ [point]))
    (peak0, 0, 0, [])
  (r.2.1, r.2.2.1, r.2.2.2)

structure TradeStats where
  winningTrades : ℕ
  losingTrades : ℕ
  winRate : ℚ
  avgWin : ℚ
  avgLoss : ℚ
  profitFactor : Option ℚ
deriving DecidableEq, Repr

/-- The buy/sell pairing loop of `calculateTradeStats`. -/
def pairCompletedTrades (trades : List BTrade) : List (ℚ × ℚ) :=
  (trades.foldl
    (fun (acc : Option BTrade × List (ℚ × ℚ)) trade =>
      if trade.side = "buy" then (some trade, acc.2)
      else if trade.side = "sell" then
        match acc.1 with
        | some cur =>
            let pnl := (trade.price - cur.price) * trade.amount
            let pnlPercent := pnl / (cur.price * trade.amount) * 100
            (none, acc.2 ++ [(pnl, pnlPercent)])
        | none => acc
      else acc)
    (none, [])).2

/-- `calculateTradeStats()` (`profitFactor = none` models `Infinity`). -/
def calculateTradeStats (trades : List BTrade) : TradeStats :=
  let completed := pairCompletedTrades trades
  if completed.length = 0 then
    { winningTrades := 0, losingTrades := 0, winRate := 0, avgWin := 0, avgLoss := 0
      profitFactor := some 0 }
  else
    let winners := completed.filter (fun t => t.1 > 0)
    let losers := completed.filter (fun t => t.1 ≤ 0)
    let totalWin := (winners.map Prod.fst).sum
    let totalLoss := |(losers.map Prod.fst).sum|
    { winningTrades := winners.length
      losingTrades := losers.length
      winRate := (winners.length : ℚ) / (completed.length : ℚ) * 100
      avgWin := if winners.length > 0 then totalWin / (winners.length : ℚ) else 0
      avgLoss := if losers.length > 0 then totalLoss / (losers.length : ℚ) else 0
      profitFactor := if totalLoss > 0 then some (totalWin / totalLoss)
        else if totalWin > 0 then none else some 0 }

/-- `calculateSharpeRatio()` (annualized with `√252`). -/
def calculateSharpeRatio (sqrtFn : ℚ → ℚ) (equityCurve : List EquityPoint) : ℚ :=
  if equityCurve.length < 2 then 0
  else
    let eq := equityCurve.map EquityPoint.totalEquity
    let returns := (List.range (eq.length - 1)).map
      (fun i => (eq.getD (i + 1) 0 - eq.getD i 0) / eq.getD i 0)
    let mean := returns.sum / (returns.length : ℚ)
    let variance := (returns.map (fun r => (r - mean) ^ (2 : ℕ))).sum / (returns.length : ℚ)
    let stdDev := sqrtFn variance
    if stdDev = 0 then 0 else mean * 252 / (stdDev * sqrtFn 252)

structure BTSummary where
  initialBalance : ℚ
  finalBalance : ℚ
  totalReturn : ℚ
  totalTrades : ℕ
  winningTrades : ℕ
  losingTrades : ℕ
  winRate : ℚ
  avgWin : ℚ
  avgLoss : ℚ
  profitFactor : Option ℚ
  maxDrawdown : ℚ
  maxDrawdownPercent : ℚ
  sharpeRatio : ℚ
  duration : ℤ
deriving DecidableEq, Repr

structure BTResults where
  summary : BTSummary
  trades : List BTrade
  equityCurve : List EquityPoint
  signals : List SignalRec
  drawdownSeries : List DrawdownPoint
deriving DecidableEq, Repr

/-- `calculateResults(historicalData, signals, duration)`. -/
def calculateResults (cfg : BTConfig) (sqrtFn : ℚ → ℚ) (st : BTState)
    (signals : List SignalRec) (duration : ℤ) : BTResults :=
  let finalBalance := st.balance
  let totalReturn := (finalBalance - cfg.initialBalance) / cfg.initialBalance * 100
  let dd := calculateDrawdowns cfg st
  let tradeStats := calculateTradeStats st.trades
  let sharpeRatio := calculateSharpeRatio sqrtFn st.equityCurve
  { summary :=
      { initialBalance := cfg.initialBalance
        finalBalance := finalBalance
        totalReturn := totalReturn
        totalTrades := st.trades.length
        winningTrades := tradeStats.winningTrades
        losingTrades := tradeStats.losingTrades
        winRate := tradeStats.winRate
        avgWin := tradeStats.avgWin
        avgLoss := tradeStats.avgLoss
        profitFactor := tradeStats.profitFactor
        maxDrawdown := dd.1
        maxDrawdownPercent := dd.2.1
        sharpeRatio := sharpeRatio
        duration := duration }
    trades := st.trades
    equityCurve := st.equityCurve
    signals := signals
    drawdownSeries := dd.2.2 }

/-- `BacktestEngine.run(strategy, historicalData)`: reset, walk the candles,
close open positions at the last close, compute results.  The wall-clock
`duration = endTime − startTime` is the only time-dependent input and is
passed explicitly. -/
def run (cfg : BTConfig) (sqrtFn : ℚ → ℚ) (strategy : MarketData → Signal)
    (historicalData : List BTCandle) (duration : ℤ) : BTResults :=
  let looped := historicalData.enum.foldl
    (fun acc p => runStep cfg sqrtFn strategy historicalData acc p.1 p.2)
    (initialBTState cfg, [])
  let closed :=
    match historicalData.getLast? with
    | some lastCandle => closeAllPositions cfg looped.1 lastCandle
    | none => looped.1
  calculateResults cfg sqrtFn closed looped.2 duration

end Fitcher

namespace Fitcher

lemma posInvariant_empty : PosInvariant Position.empty := by
  simp [PosInvariant, Position.empty]

lemma posInvariant_applyOp {p : Position} {op : PosOp}
    (h : PosInvariant p) (hok : amendedOpOK p op) :
    PosInvariant (p.applyOp op) := by
  obtain ⟨hsum, htot, hcost, hav, hlk⟩ := h
  cases op with
  | buy a pr f =>
      obtain ⟨ha, hpr, hf⟩ := hok
      refine ⟨by simp [Position.applyOp, Position.addBuyTrade]; linarith, ?_, ?_, ?_, ?_⟩ <;>
        simp only [Position.applyOp, Position.addBuyTrade] <;> nlinarith
  | sell a pr f =>
      obtain ⟨ha, hpr, hf, hav'⟩ := hok
      refine ⟨by simp [Position.applyOp, Position.addSellTrade]; linarith, ?_, ?_, ?_, ?_⟩
      · simp only [Position.applyOp, Position.addSellTrade]; linarith
      · simp only [Position.applyOp, Position.addSellTrade]; exact le_max_left 0 _
      · simp only [Position.applyOp, Position.addSellTrade]; linarith
      · simpa [Position.applyOp, Position.addSellTrade] using hlk
  | lock a =>
      have ha : (0 : ℚ) ≤ a := hok
      simp only [Position.applyOp, Position.lockAmount]
      split
      · exact ⟨hsum, htot, hcost, hav, hlk⟩
      · rename_i hle
        push_neg at hle
        exact ⟨by simp; linarith, htot, hcost, by simp; linarith, by simp; linarith⟩
  | unlock a =>
      have ha : (0 : ℚ) ≤ a := hok
      simp only [Position.applyOp, Position.unlockAmount]
      split
      · exact ⟨hsum, htot, hcost, hav, hlk⟩
      · rename_i hle
        push_neg at hle
        exact ⟨by simp; linarith, htot, hcost, by simp; linarith, by simp; linarith⟩

lemma posInvariant_applyOps {p : Position} {ops : List PosOp}
    (h : PosInvariant p) (hok : amendedSeqOK p ops) :
    PosInvariant (p.applyOps ops) := by
  induction ops generalizing p with
  | nil => simpa [Position.applyOps] using h
  | cons op rest ih =>
      obtain ⟨h1, h2⟩ := hok
      simpa [Position.applyOps] using
        ih (posInvariant_applyOp h h1) h2

lemma amendedSeqOK_take {ops : List PosOp} :
    ∀ (p : Position) (k : ℕ), amendedSeqOK p ops → amendedSeqOK p (ops.take k) := by
  induction ops with
  | nil => intro p k _; simp [amendedSeqOK]
  | cons op rest ih =>
      intro p k h
      cases k with
      | zero => simp [amendedSeqOK]
      | succ k => exact ⟨h.1, ih _ k h.2⟩

/-- C1: starting from the empty position, `buy 1 @ 50000 fee 10`, then
`buy 1 @ 60000 fee 12`, then `sell 1 @ 70000 fee 15` leaves
`averageEntryPrice = 55011`, `totalAmount = 1`, `realizedPnL = 14974` and
`totalFees = 37`. -/
theorem position_pnl_scenario :
    (((Position.empty.addBuyTrade 1 50000 10).addBuyTrade 1 60000 12).addSellTrade
          1 70000 15).averageEntryPrice = 55011 ∧
      (((Position.empty.addBuyTrade 1 50000 10).addBuyTrade 1 60000 12).addSellTrade
          1 70000 15).totalAmount = 1 ∧
      (((Position.empty.addBuyTrade 1 50000 10).addBuyTrade 1 60000 12).addSellTrade
          1 70000 15).realizedPnL = 14974 ∧
      (((Position.empty.addBuyTrade 1 50000 10).addBuyTrade 1 60000 12).addSellTrade
          1 70000 15).totalFees = 37 := by
  simp only [Position.empty, Position.addBuyTrade, Position.addSellTrade]
  norm_num

/-- C2 (counterexample): the code puts no guard on `addSellTrade`, so a
single sell with `amount 1, price 1, fee 0` — which satisfies the claim's
per-trade constraints `amount > 0`, `price > 0`, `fee ≥ 0` — drives
`totalAmount` of a fresh position to `-1 < 0`, falsifying
`totalAmount ≥ 0`. -/
theorem position_invariant_counterexample :
    claimTradeOK (PosOp.sell 1 1 0) ∧
      (Position.empty.applyOps [PosOp.sell 1 1 0]).totalAmount = -1 := by
  constructor
  · simp [claimTradeOK]
  · simp only [Position.applyOps, List.foldl, Position.applyOp, Position.addSellTrade,
      Position.empty]
    norm_num

/-- C2 (amended): for every sequence of buy/sell/lock/unlock operations on a
fresh position in which each buy and sell has `amount > 0`, `price > 0`,
`fee ≥ 0`, each sell's amount is at most the `availableAmount` at the moment
it is applied, and each lock/unlock amount is nonnegative, after every
operation (every prefix of the sequence) the position satisfies
`availableAmount + lockedAmount = totalAmount`, `totalAmount ≥ 0` and
`totalCost ≥ 0` (together with `availableAmount ≥ 0` and
`lockedAmount ≥ 0`). -/
theorem position_invariants (ops : List PosOp) (h : amendedSeqOK Position.empty ops)
    (k : ℕ) : PosInvariant (Position.empty.applyOps (ops.take k)) :=
  posInvariant_applyOps posInvariant_empty (amendedSeqOK_take Position.empty k h)

/-- Witness for `position_invariants` at a concrete four-operation
sequence. -/
theorem position_invariants_witness :
    amendedSeqOK Position.empty
        [PosOp.buy 2 3 1, PosOp.lock 1, PosOp.unlock 1, PosOp.sell 1 3 0] ∧
      PosInvariant (Position.empty.applyOps
        ([PosOp.buy 2 3 1, PosOp.lock 1, PosOp.unlock 1, PosOp.sell 1 3 0].take 4)) := by
  have h : amendedSeqOK Position.empty
      [PosOp.buy 2 3 1, PosOp.lock 1, PosOp.unlock 1, PosOp.sell 1 3 0] := by
    simp only [amendedSeqOK, amendedOpOK, Position.applyOp, Position.addBuyTrade,
      Position.lockAmount, Position.unlockAmount, Position.addSellTrade, Position.empty]
    norm_num
  exact ⟨h, position_invariants _ h 4⟩

/-- C3 (counterexample): terminal statuses are not sticky.  A fresh order of
amount 1 filled by a single trade reaches status `filled`, yet a subsequent
`updateStatus('open')` moves it back to `open`, contradicting the claim that
once filled no `updateStatus` call changes the status. -/
theorem order_terminal_counterexample :
    ((Order.create 1).addTrade ⟨100, 1, 0⟩).status = OrderStatus.filled ∧
      (((Order.create 1).addTrade ⟨100, 1, 0⟩).updateStatus OrderStatus.opened
        StatusUpdates.empty).status = OrderStatus.opened := by
  constructor
  · simp only [Order.create, Order.addTrade, Order.updateStatus, StatusUpdates.empty,
      List.nil_append, List.map_cons, List.map_nil, List.sum_cons, List.sum_nil]
    norm_num
  · simp [Order.updateStatus, StatusUpdates.empty]

/-- C3 (amended): `updateStatus` performs no lifecycle enforcement — it sets
the status to whatever valid status is requested, from any current status —
and `addTrade` only ever moves the status to `filled` (when the recomputed
`remainingAmount ≤ 0`) or `partial` (when `filledAmount > 0`), otherwise
leaving it unchanged. -/
theorem order_status_transitions (o : Order) (s : OrderStatus) (u : StatusUpdates)
    (t : OrderTrade) :
    (o.updateStatus s u).status = s ∧
      ((o.addTrade t).status = OrderStatus.filled ∨
        (o.addTrade t).status = OrderStatus.partialFill ∨
        (o.addTrade t).status = o.status) := by
  constructor
  · simp only [Order.updateStatus]
    cases u.filledAmount <;> cases u.averagePrice <;> cases u.fee <;> rfl
  · simp only [Order.addTrade]
    split
    · left; simp [Order.updateStatus, StatusUpdates.empty]
    · split
      · right; left; simp [Order.updateStatus, StatusUpdates.empty]
      · right; right; rfl

lemma wfTrainSize_le (n S : ℕ) {r : ℚ} (hr1 : r ≤ 1) :
    wfTrainSize n S r ≤ wfSplitSize n S := by
  have h : ⌊(wfSplitSize n S : ℚ) * r⌋ ≤ (wfSplitSize n S : ℤ) := by
    calc ⌊(wfSplitSize n S : ℚ) * r⌋ ≤ ⌊((wfSplitSize n S : ℕ) : ℚ)⌋ :=
          Int.floor_le_floor (mul_le_of_le_one_right (by positivity) hr1)
      _ = (wfSplitSize n S : ℤ) := Int.floor_natCast _
  exact Int.toNat_le.mpr h

lemma wfSizes_add {n S : ℕ} {r : ℚ} (hr1 : r ≤ 1) :
    wfTrainSize n S r + wfTestSize n S r = wfSplitSize n S :=
  Nat.add_sub_cancel' (wfTrainSize_le n S hr1)

lemma wf_start_bound {n S i : ℕ} {r : ℚ} (hi : i < S) (hr1 : r ≤ 1) :
    i * wfTestSize n S r + wfSplitSize n S ≤ n := by
  have h1 : wfTestSize n S r ≤ wfSplitSize n S := Nat.sub_le _ _
  calc i * wfTestSize n S r + wfSplitSize n S
      ≤ i * wfSplitSize n S + wfSplitSize n S :=
        Nat.add_le_add_right (Nat.mul_le_mul_left i h1) _
    _ = (i + 1) * wfSplitSize n S := by ring
    _ ≤ S * wfSplitSize n S := Nat.mul_le_mul_right _ hi
    _ = n / S * S := by rw [wfSplitSize, Nat.mul_comm]
    _ ≤ n := Nat.div_mul_le_self n S

lemma jsSlice_length {α : Type} (l : List α) (s k : ℕ) (h : s + k ≤ l.length) :
    (jsSlice l s (s + k)).length = k := by
  simp only [jsSlice, List.length_take, List.length_drop, Nat.add_sub_cancel_left]
  omega

lemma jsSlice_getElem? {α : Type} (l : List α) (s k j : ℕ) (hj : j < k) :
    (jsSlice l s (s + k))[j]? = l[s + j]? := by
  simp only [jsSlice, Nat.add_sub_cancel_left]
  rw [List.getElem?_take, if_pos hj, List.getElem?_drop]

/-- C9: `createWalkForwardSplits` with `n` data points, `nSplits = S ≥ 1` and
`trainRatio = r ∈ [0, 1]` produces exactly `S` splits; with
`splitSize = ⌊n/S⌋`, `trainSize = ⌊splitSize·r⌋`,
`testSize = splitSize − trainSize`, split `i` has train of length
`trainSize` holding `data[i·testSize + j]` for `j < trainSize` and test of
length `testSize` holding `data[i·testSize + trainSize + j]` for
`j < testSize`.  In particular for `n = 300`, `S = 3`, `r = 7/10` the
(train, test) index ranges are `(0..70, 70..100)`, `(30..100, 100..130)`,
`(60..130, 130..160)`. -/
theorem walkForwardSplits_spec {α : Type} (data : List α) (S : ℕ) (r : ℚ)
    (hS : 0 < S) (hr0 : 0 ≤ r) (hr1 : r ≤ 1) :
    ((createWalkForwardSplits data S r).length = S ∧
      ∀ i (hi : i < (createWalkForwardSplits data S r).length),
        (((createWalkForwardSplits data S r).get ⟨i, hi⟩).1.length
            = wfTrainSize data.length S r ∧
          ((createWalkForwardSplits data S r).get ⟨i, hi⟩).2.length
            = wfTestSize data.length S r) ∧
        (∀ j, j < wfTrainSize data.length S r →
          (((createWalkForwardSplits data S r).get ⟨i, hi⟩).1)[j]?
            = data[i * wfTestSize data.length S r + j]?) ∧
        (∀ j, j < wfTestSize data.length S r →
          (((createWalkForwardSplits data S r).get ⟨i, hi⟩).2)[j]?
            = data[i * wfTestSize data.length S r + wfTrainSize data.length S r + j]?)) ∧
    createWalkForwardSplits (List.range 300) 3 (7 / 10)
      = [(List.range' 0 70, List.range' 70 30), (List.range' 30 70, List.range' 100 30),
          (List.range' 60 70, List.range' 130 30)] := by
  constructor
  · have hlen : (createWalkForwardSplits data S r).length = S := by
      simp [createWalkForwardSplits]
    refine ⟨hlen, ?_⟩
    intro i hi
    have hiS : i < S := by omega
    set n := data.length with hn
    set ts := wfTrainSize n S r with hts
    set tes := wfTestSize n S r with htes
    have hbound : i * tes + wfSplitSize n S ≤ n := wf_start_bound hiS hr1
    have hadd : ts + tes = wfSplitSize n S := wfSizes_add hr1
    have hget : (createWalkForwardSplits data S r).get ⟨i, hi⟩
        = (jsSlice data (i * tes) (i * tes + ts),
            jsSlice data (i * tes + ts) (min (i * tes + ts + tes) n)) := by
      simp only [createWalkForwardSplits, List.get_eq_getElem, List.getElem_map,
        List.getElem_range, ← hn, ← hts, ← htes]
    have hmin : min (i * tes + ts + tes) n = i * tes + ts + tes := by
      apply Nat.min_eq_left; omega
    have htrain_le : i * tes + ts ≤ n := by omega
    have htest_le : (i * tes + ts) + tes ≤ n := by omega
    refine ⟨⟨?_, ?_⟩, ?_, ?_⟩
    · rw [hget]; exact jsSlice_length data _ ts htrain_le
    · rw [hget, hmin]
      exact jsSlice_length data _ tes htest_le
    · intro j hj
      rw [hget]
      exact jsSlice_getElem? data _ ts j hj
    · intro j hj
      rw [hget, hmin]
      have := jsSlice_getElem? data (i * tes + ts) tes j hj
      rw [this]
  · have h70 : wfTrainSize 300 3 (7 / 10) = 70 := by
      rw [wfTrainSize, wfSplitSize]
      norm_num
      decide
    have h30 : wfTestSize 300 3 (7 / 10) = 30 := by
      rw [wfTestSize, wfSplitSize, h70]
    simp only [createWalkForwardSplits, List.length_range, h70, h30]
    decide

/-- Witness for `walkForwardSplits_spec` at `n = 300`, `S = 3`,
`r = 7/10`. -/
theorem walkForwardSplits_spec_witness :
    0 < 3 ∧ (0 : ℚ) ≤ 7 / 10 ∧ (7 / 10 : ℚ) ≤ 1 ∧
      (createWalkForwardSplits (List.range 300) 3 (7 / 10)).length = 3 :=
  ⟨by norm_num, by norm_num, by norm_num,
    (walkForwardSplits_spec (List.range 300) 3 (7 / 10) (by norm_num) (by norm_num)
        (by norm_num)).1.1⟩

/-- C6 (failing input): appending a candle whose timestamp already exists in
the file does NOT overwrite the stored candle.  The merged array is
`[...existing, ...appended]`, the sort is stable, and the dedup loop keeps
the FIRST occurrence of each timestamp — so the existing candle survives,
contrary to the claim (and to the code's own comment
`keep latest version if duplicates`). -/
theorem appendCandles_duplicate_keeps_existing :
    appendCandlesMerge [⟨1000, 1, 1, 1, 1, 1⟩] [⟨1000, 2, 2, 2, 2, 2⟩]
        = [⟨1000, 1, 1, 1, 1, 1⟩] ∧
      appendCandlesMerge [⟨1000, 1, 1, 1, 1, 1⟩] [⟨1000, 2, 2, 2, 2, 2⟩]
        ≠ [⟨1000, 2, 2, 2, 2, 2⟩] := by
  have h : appendCandlesMerge [⟨1000, 1, 1, 1, 1, 1⟩] [⟨1000, 2, 2, 2, 2, 2⟩]
      = [⟨1000, 1, 1, 1, 1, 1⟩] := by
    simp [appendCandlesMerge, candleSort, candleInsert, candleDedup]
  refine ⟨h, ?_⟩
  rw [h]
  intro hEq
  norm_num [Candle.mk.injEq] at hEq

lemma gapScan_mem (tf : ℕ) :
    ∀ (l : List Candle) (g : DataGap),
      g ∈ gapScan tf l ↔
        ∃ i, ∃ h1 : i < l.length, ∃ h2 : i + 1 < l.length,
          (((l.get ⟨i + 1, h2⟩).timestamp - (l.get ⟨i, h1⟩).timestamp : ℤ) : ℚ)
              > (tf : ℚ) * 1.5 ∧
            g = ⟨(l.get ⟨i, h1⟩).timestamp + tf, (l.get ⟨i + 1, h2⟩).timestamp - tf⟩ := by
  intro l
  induction l with
  | nil =>
      intro g
      simp only [gapScan, List.not_mem_nil, List.length_nil, false_iff]
      rintro ⟨i, h1, -⟩
      omega
  | cons c1 t ih =>
      cases t with
      | nil =>
          intro g
          simp only [gapScan, List.not_mem_nil, List.length_singleton, false_iff]
          rintro ⟨i, h1, h2, -⟩
          omega
      | cons c2 rest =>
          intro g
          constructor
          · intro hmem
            rcases List.mem_append.mp hmem with hl | hr
            · refine ⟨0, by simp, by simp [Nat.lt_of_lt_of_le], ?_⟩
              by_cases hc : ((c2.timestamp - c1.timestamp : ℤ) : ℚ) > (tf : ℚ) * 1.5
              · rw [if_pos hc] at hl
                simp only [List.mem_singleton] at hl
                exact ⟨hc, hl⟩
              · rw [if_neg hc] at hl
                exact absurd hl (List.not_mem_nil g)
            · obtain ⟨i, h1, h2, hcond, heq⟩ := (ih g).mp hr
              exact ⟨i + 1, by simpa using Nat.succ_lt_succ h1,
                by simpa using Nat.succ_lt_succ h2, hcond, heq⟩
          · rintro ⟨i, h1, h2, hcond, heq⟩
            apply List.mem_append.mpr
            cases i with
            | zero =>
                left
                simp only [List.get_eq_getElem, List.getElem_cons_succ,
                  List.getElem_cons_zero] at hcond heq
                rw [if_pos hcond]
                simp [heq]
            | succ i =>
                right
                apply (ih g).mpr
                refine ⟨i, by simpa using Nat.lt_of_succ_lt_succ h1,
                  by simpa using Nat.lt_of_succ_lt_succ h2, ?_, ?_⟩
                · simpa using hcond
                · simpa using heq

/-- C7: with a `DataSource` row and an available range, `detectGaps` reports
a gap exactly for each consecutive candle pair whose timestamp difference
exceeds `1.5 ×` the parsed timeframe, the gap running from the earlier
timestamp plus one timeframe to the later timestamp minus one timeframe; and
with no `DataSource` row it reports the single gap
`[2020-01-01, now]`. -/
theorem detectGaps_spec (hasRange : Bool) (candles : List Candle) (amount : ℕ)
    (unit : TimeframeUnit) (now : ℤ) :
    detectGaps false hasRange candles (parseTimeframe amount unit) now
        = [⟨jan2020ms, now⟩] ∧
      ∀ g, g ∈ detectGaps true true candles (parseTimeframe amount unit) now ↔
        ∃ i, ∃ h1 : i < candles.length, ∃ h2 : i + 1 < candles.length,
          (((candles.get ⟨i + 1, h2⟩).timestamp
                - (candles.get ⟨i, h1⟩).timestamp : ℤ) : ℚ)
              > (parseTimeframe amount unit : ℚ) * 1.5 ∧
            g = ⟨(candles.get ⟨i, h1⟩).timestamp + parseTimeframe amount unit,
                  (candles.get ⟨i + 1, h2⟩).timestamp - parseTimeframe amount unit⟩ := by
  refine ⟨rfl, ?_⟩
  intro g
  simpa [detectGaps] using gapScan_mem (parseTimeframe amount unit) candles g

lemma mem_subInsert {b s : Subscription} :
    ∀ {l : List Subscription}, b ∈ subInsert s l ↔ b = s ∨ b ∈ l := by
  intro l
  induction l with
  | nil => simp [subInsert]
  | cons d ds ih =>
      simp only [subInsert]
      split
      · simp
      · simp only [List.mem_cons, ih]
        tauto

lemma sorted_subInsert (s : Subscription) {l : List Subscription}
    (h : l.Sorted prioGE) : (subInsert s l).Sorted prioGE := by
  induction l with
  | nil => simp [subInsert, List.sorted_cons]
  | cons d ds ih =>
      rw [List.sorted_cons] at h
      obtain ⟨hd, hds⟩ := h
      simp only [subInsert]
      split
      · rename_i hlt
        rw [List.sorted_cons]
        refine ⟨?_, List.sorted_cons.mpr ⟨hd, hds⟩⟩
        intro b hb
        rcases List.mem_cons.mp hb with rfl | hb
        · exact le_of_lt hlt
        · exact le_trans (hd b hb) (le_of_lt hlt)
      · rename_i hnlt
        push_neg at hnlt
        rw [List.sorted_cons]
        refine ⟨?_, ih hds⟩
        intro b hb
        rcases mem_subInsert.mp hb with rfl | hb
        · exact hnlt
        · exact hd b hb

lemma sorted_subSortDesc (l : List Subscription) : (subSortDesc l).Sorted prioGE := by
  have aux : ∀ (m : List Subscription) (acc : List Subscription), acc.Sorted prioGE →
      (m.foldl (fun acc s => subInsert s acc) acc).Sorted prioGE := by
    intro m
    induction m with
    | nil => intro acc h; simpa
    | cons s rest ih =>
        intro acc h
        exact ih _ (sorted_subInsert s h)
  exact aux l [] (by simp)

lemma sorted_subscribeAll (reqs : List Subscription) :
    (subscribeAll reqs).Sorted prioGE := by
  have aux : ∀ (m : List Subscription) (acc : List Subscription), acc.Sorted prioGE →
      (m.foldl subscribe acc).Sorted prioGE := by
    intro m
    induction m with
    | nil => intro acc h; simpa
    | cons s rest ih =>
        intro acc _
        exact ih _ (sorted_subSortDesc _)
  exact aux reqs [] (by simp)

lemma publishLoop_invoked (ok : Subscription → Bool) (l : List Subscription) :
    (publishLoop ok l).1 = l.map Subscription.id := by
  induction l with
  | nil => rfl
  | cons s rest ih =>
      simp only [publishLoop]
      split <;> simp [ih]

lemma publishLoop_errors (ok : Subscription → Bool) (l : List Subscription) :
    (publishLoop ok l).2.2.1 = (l.filter (fun s => !(ok s))).length := by
  induction l with
  | nil => rfl
  | cons s rest ih =>
      simp only [publishLoop, List.filter_cons]
      by_cases h : ok s = true
      · rw [if_pos h]
        simp [h, ih]
      · rw [if_neg h]
        simp only [Bool.not_eq_true] at h
        simp [h, ih]

lemma publishLoop_toRemove (ok : Subscription → Bool) (l : List Subscription) :
    (publishLoop ok l).2.2.2 = (l.filter (fun s => ok s && s.once)).map Subscription.id := by
  induction l with
  | nil => rfl
  | cons s rest ih =>
      simp only [publishLoop, List.filter_cons]
      by_cases h : ok s = true
      · rw [if_pos h]
        by_cases ho : s.once = true
        · simp [h, ho, ih]
        · simp only [Bool.not_eq_true] at ho
          simp [h, ho, ih]
      · rw [if_neg h]
        simp only [Bool.not_eq_true] at h
        simp [h, ih]

lemma nodup_ids_mem_eq {l : List Subscription}
    (h : (l.map Subscription.id).Nodup) {s t : Subscription}
    (hs : s ∈ l) (ht : t ∈ l) (hid : s.id = t.id) : s = t := by
  induction l with
  | nil => cases hs
  | cons a rest ih =>
      rw [List.map_cons, List.nodup_cons] at h
      obtain ⟨ha, hrest⟩ := h
      rcases List.mem_cons.mp hs with rfl | hs' <;>
        rcases List.mem_cons.mp ht with rfl | ht'
      · rfl
      · exact absurd (hid ▸ List.mem_map_of_mem Subscription.id ht') ha
      · exact absurd (hid ▸ List.mem_map_of_mem Subscription.id hs') (by simpa [hid] using ha)
      · exact ih hrest hs' ht'

lemma unsubscribe_eq_filter {l : List Subscription} {i : ℕ}
    (h : (l.map Subscription.id).Nodup) :
    unsubscribe l i = l.filter (fun s => s.id ≠ i) := by
  induction l with
  | nil => rfl
  | cons s rest ih =>
      rw [List.map_cons, List.nodup_cons] at h
      obtain ⟨hs, hrest⟩ := h
      simp only [unsubscribe, List.filter_cons]
      by_cases he : s.id = i
      · rw [if_pos he, if_neg (by simp [he])]
        symm
        rw [List.filter_eq_self]
        intro a ha
        simp only [ne_eq, decide_eq_true_eq]
        intro hai
        exact hs (by rw [he, ← hai]; exact List.mem_map_of_mem Subscription.id ha)
      · rw [if_neg he, if_pos (by simp [he]), ih hrest]

lemma foldl_unsubscribe_eq_filter :
    ∀ (ids : List ℕ) (l : List Subscription), (l.map Subscription.id).Nodup →
      ids.foldl unsubscribe l = l.filter (fun s => s.id ∉ ids) := by
  intro ids
  induction ids with
  | nil =>
      intro l _
      simp
  | cons i rest ih =>
      intro l h
      have h1 : unsubscribe l i = l.filter (fun s => s.id ≠ i) := unsubscribe_eq_filter h
      have h2 : ((l.filter (fun s => s.id ≠ i)).map Subscription.id).Nodup :=
        List.Nodup.sublist ((List.filter_sublist l).map Subscription.id) h
      calc (i :: rest).foldl unsubscribe l = rest.foldl unsubscribe (unsubscribe l i) := rfl
        _ = (l.filter (fun s => s.id ≠ i)).filter (fun s => s.id ∉ rest) := by
            rw [h1, ih _ h2]
        _ = l.filter (fun s => s.id ∉ i :: rest) := by
            rw [List.filter_filter]
            apply List.filter_congr
            intro x _
            simp only [List.mem_cons, not_or, Bool.decide_and, decide_not]
            exact Bool.and_comm _ _

/-- C8: publishing an event to the subscribers accumulated by `subscribe`
invokes every handler, in the subscriber-list order, which is sorted by
descending priority; a throwing handler adds one to the error metric and
does not prevent any later handler from being invoked (the invocation list
is all ids, whatever the throw oracle says); and exactly the `once`
subscriptions whose handler returned normally are removed, while a `once`
subscription whose handler threw stays subscribed. -/
theorem eventBus_publish_spec (reqs : List Subscription) (ok : Subscription → Bool)
    (hnd : ((subscribeAll reqs).map Subscription.id).Nodup) :
    (subscribeAll reqs).Sorted prioGE ∧
      (publish (subscribeAll reqs) ok).invoked = (subscribeAll reqs).map Subscription.id ∧
      (publish (subscribeAll reqs) ok).errors
          = ((subscribeAll reqs).filter (fun s => !(ok s))).length ∧
      (publish (subscribeAll reqs) ok).remaining
          = (subscribeAll reqs).filter (fun s => !(s.once && ok s)) := by
  set hs := subscribeAll reqs with hhs
  refine ⟨sorted_subscribeAll reqs, publishLoop_invoked ok hs, publishLoop_errors ok hs, ?_⟩
  show (publishLoop ok hs).2.2.2.foldl unsubscribe hs = _
  rw [publishLoop_toRemove, foldl_unsubscribe_eq_filter _ _ hnd]
  apply List.filter_congr
  intro x hx
  by_cases hcase : (x.once && ok x) = true
  · rw [hcase, Bool.not_true]
    simp only [decide_eq_false_iff_not, not_not]
    rw [Bool.and_eq_true] at hcase
    exact List.mem_map_of_mem Subscription.id
      (List.mem_filter.mpr ⟨hx, by rw [Bool.and_eq_true]; exact ⟨hcase.2, hcase.1⟩⟩)
  · have hf : (x.once && ok x) = false := by
      rcases Bool.eq_false_or_eq_true (x.once && ok x) with h | h
      · exact absurd h hcase
      · exact h
    rw [hf, Bool.not_false]
    simp only [decide_eq_true_eq]
    intro hmem
    obtain ⟨t, htf, htid⟩ := List.mem_map.mp hmem
    obtain ⟨htmem, htok⟩ := List.mem_filter.mp htf
    have hteq : t = x := nodup_ids_mem_eq hnd htmem hx htid
    subst hteq
    rw [Bool.and_eq_true] at htok
    exact hcase (by rw [Bool.and_eq_true]; exact ⟨htok.2, htok.1⟩)

/-- Witness for `eventBus_publish_spec`: three subscriptions with priorities
5, 10, 10 and a handler oracle under which the id-3 handler throws. -/
theorem eventBus_publish_spec_witness :
    ((subscribeAll [⟨1, 5, false⟩, ⟨2, 10, true⟩, ⟨3, 10, true⟩]).map
        Subscription.id).Nodup ∧
      (publish (subscribeAll [⟨1, 5, false⟩, ⟨2, 10, true⟩, ⟨3, 10, true⟩])
            (fun s => s.id ≠ 3)).remaining
          = (subscribeAll [⟨1, 5, false⟩, ⟨2, 10, true⟩, ⟨3, 10, true⟩]).filter
              (fun s => !(s.once && (s.id ≠ 3 : Bool))) := by
  have hnd : ((subscribeAll [⟨1, 5, false⟩, ⟨2, 10, true⟩, ⟨3, 10, true⟩]).map
      Subscription.id).Nodup := by decide
  exact ⟨hnd,
    (eventBus_publish_spec [⟨1, 5, false⟩, ⟨2, 10, true⟩, ⟨3, 10, true⟩]
        (fun s => s.id ≠ 3) hnd).2.2.2⟩

lemma mem_checkNamesInOrder (n : CheckName) : n ∈ checkNamesInOrder := by
  cases n <;> simp [checkNamesInOrder]

lemma failedFilter_empty_iff (cks : CheckOutcomes) :
    (checkNamesInOrder.filter (fun n => !(cks.get n))).isEmpty = true ↔
      ∀ n, cks.get n = true := by
  rw [List.isEmpty_iff]
  constructor
  · intro h n
    by_contra hn
    have hmem : n ∈ checkNamesInOrder.filter (fun m => !(cks.get m)) :=
      List.mem_filter.mpr ⟨mem_checkNamesInOrder n, by simp [Bool.not_eq_true] at hn ⊢; exact hn⟩
    rw [h] at hmem
    cases hmem
  · intro h
    rw [List.filter_eq_nil_iff]
    intro a _
    simp [h a]

lemma mem_failedFilter_iff (cks : CheckOutcomes) (n : CheckName) :
    n ∈ checkNamesInOrder.filter (fun m => !(cks.get m)) ↔ cks.get n = false := by
  rw [List.mem_filter]
  simp [mem_checkNamesInOrder n]

lemma checkTrade_allowed_iff (cfg : RiskConfig) (s0 : RiskState) (now today : ℤ)
    (tp : TradeParams) (pf : Portfolio) :
    (checkTrade cfg s0 now today tp pf).1.allowed = true ↔
      ∀ n, (checkTrade cfg s0 now today tp pf).1.checks.get n = true := by
  simp only [checkTrade]
  exact failedFilter_empty_iff _

lemma checkTrade_failed_iff (cfg : RiskConfig) (s0 : RiskState) (now today : ℤ)
    (tp : TradeParams) (pf : Portfolio) (n : CheckName) :
    n ∈ (checkTrade cfg s0 now today tp pf).1.failedChecks ↔
      (checkTrade cfg s0 now today tp pf).1.checks.get n = false := by
  simp only [checkTrade]
  exact mem_failedFilter_iff _ n

lemma trigger_helper (cks : CheckOutcomes) (s4 : RiskState) (now : ℤ)
    (h : ∃ n, criticalCheck n = true ∧ cks.get n = false) :
    (if (checkNamesInOrder.filter (fun n => !(cks.get n))).isEmpty = false ∧
        (checkNamesInOrder.filter (fun n => !(cks.get n))).filter criticalCheck ≠ [] then
      triggerCircuitBreaker s4 now
    else s4).breaker = some now := by
  obtain ⟨n, hc, hf⟩ := h
  have hmem : n ∈ checkNamesInOrder.filter (fun m => !(cks.get m)) :=
    (mem_failedFilter_iff cks n).mpr hf
  have hcond : (checkNamesInOrder.filter (fun n => !(cks.get n))).isEmpty = false ∧
      (checkNamesInOrder.filter (fun n => !(cks.get n))).filter criticalCheck ≠ [] := by
    constructor
    · cases hfe : (checkNamesInOrder.filter (fun m => !(cks.get m))).isEmpty
      · rfl
      · rw [List.isEmpty_iff] at hfe
        rw [hfe] at hmem
        cases hmem
    · intro hnil
      have hin : n ∈ (checkNamesInOrder.filter (fun m => !(cks.get m))).filter criticalCheck :=
        List.mem_filter.mpr ⟨hmem, hc⟩
      rw [hnil] at hin
      cases hin
  rw [if_pos hcond]
  rfl

lemma checkTrade_critical_trigger (cfg : RiskConfig) (s0 : RiskState) (now today : ℤ)
    (tp : TradeParams) (pf : Portfolio)
    (h : ∃ n, criticalCheck n = true ∧ (checkTrade cfg s0 now today tp pf).1.checks.get n
        = false) :
    ((checkTrade cfg s0 now today tp pf).2).breaker = some now := by
  simp only [checkTrade] at h ⊢
  exact trigger_helper _ _ now h

lemma scenarioState_eval :
    scenarioState =
      { initialized := true
        dailyStats := { date := 0, tradeCount := 1, volume := 0, fees := 0, realizedPnL := -5100 }
        lastTradeTime := some 0
        totalTrades := 0
        totalVolume := 0
        realizedPnL := -5100
        initialEquity := 100000
        peakEquity := 100000
        consecutiveLosses := 1
        breaker := none } := by
  simp only [scenarioState, handleTrade, initializeUser, freshRiskState, createDailyStats,
    jsTruthy, jsDefault, jsOr]
  norm_num

lemma scenario_checkTrade_eval :
    checkTrade defaultRiskConfig scenarioState 2000 0 scenarioTP scenarioPF
      = ({ allowed := false
           checks := ⟨true, false, true, true, true, true, true, true, true, true⟩
           failedChecks := [CheckName.dailyLimits] },
          { initialized := true
            dailyStats := ⟨0, 1, 0, 0, -5100⟩
            lastTradeTime := some 0
            totalTrades := 0
            totalVolume := 0
            realizedPnL := -5100
            initialEquity := 100000
            peakEquity := 100000
            consecutiveLosses := 1
            breaker := some 2000 }) := by
  rw [scenarioState_eval]
  simp only [checkTrade, initializeUser, checkCircuitBreaker, checkDailyLimits,
    checkPositionSize, checkTotalExposure, checkConcentration, checkCooldown, checkDrawdown,
    checkConsecutiveLosses, checkSlippage, checkPriceDeviation, tradeValueOf, jsOr, jsNum,
    jsTruthy, jsDefault, scenarioTP, scenarioPF, defaultRiskConfig, createDailyStats,
    triggerCircuitBreaker, checkNamesInOrder, criticalCheck, CheckOutcomes.get,
    List.filter, List.isEmpty]
  norm_num
  intro h
  exact absurd h (by decide)

/-- C4: `checkTrade` allows the trade iff every one of the ten checks
allows it; the failed-checks list holds exactly the failing checks; a
failing critical check (`drawdown`, `consecutiveLosses`, `dailyLimits`)
triggers the circuit breaker; and in the spec's scenario (equity 100000,
`maxDailyLoss = 0.05`, daily realized PnL −5100) the next `checkTrade` is
denied with `dailyLimits` among the failed checks and the breaker set. -/
theorem riskCheckTrade_spec (cfg : RiskConfig) (s0 : RiskState) (now today : ℤ)
    (tp : TradeParams) (pf : Portfolio) :
    ((checkTrade cfg s0 now today tp pf).1.allowed = true ↔
        ∀ n, (checkTrade cfg s0 now today tp pf).1.checks.get n = true) ∧
      (∀ n, n ∈ (checkTrade cfg s0 now today tp pf).1.failedChecks ↔
          (checkTrade cfg s0 now today tp pf).1.checks.get n = false) ∧
      ((∃ n, criticalCheck n = true ∧
          (checkTrade cfg s0 now today tp pf).1.checks.get n = false) →
        ((checkTrade cfg s0 now today tp pf).2).breaker = some now) ∧
      ((checkTrade defaultRiskConfig scenarioState 2000 0 scenarioTP scenarioPF).1.allowed
          = false ∧
        CheckName.dailyLimits ∈
          (checkTrade defaultRiskConfig scenarioState 2000 0 scenarioTP
              scenarioPF).1.failedChecks ∧
        ((checkTrade defaultRiskConfig scenarioState 2000 0 scenarioTP scenarioPF).2).breaker
          = some 2000) :=
  ⟨checkTrade_allowed_iff cfg s0 now today tp pf,
    checkTrade_failed_iff cfg s0 now today tp pf,
    checkTrade_critical_trigger cfg s0 now today tp pf,
    by rw [scenario_checkTrade_eval]; exact ⟨rfl, by simp, rfl⟩⟩

/-- Witness for `riskCheckTrade_spec`: the scenario exhibits a critical
failing check, and the theorem then forces the breaker. -/
theorem riskCheckTrade_spec_witness :
    (∃ n, criticalCheck n = true ∧
        (checkTrade defaultRiskConfig scenarioState 2000 0 scenarioTP
            scenarioPF).1.checks.get n = false) ∧
      ((checkTrade defaultRiskConfig scenarioState 2000 0 scenarioTP scenarioPF).2).breaker
        = some 2000 := by
  have hx : ∃ n, criticalCheck n = true ∧
      (checkTrade defaultRiskConfig scenarioState 2000 0 scenarioTP
          scenarioPF).1.checks.get n = false :=
    ⟨CheckName.dailyLimits, rfl, by rw [scenario_checkTrade_eval]; rfl⟩
  exact ⟨hx,
    (riskCheckTrade_spec defaultRiskConfig scenarioState 2000 0 scenarioTP
        scenarioPF).2.2.1 hx⟩

lemma scenario_checkTrade2_eval :
    checkTrade defaultRiskConfig
        { initialized := true
          dailyStats := ⟨0, 1, 0, 0, -5100⟩
          lastTradeTime := some 0
          totalTrades := 0
          totalVolume := 0
          realizedPnL := -5100
          initialEquity := 100000
          peakEquity := 100000
          consecutiveLosses := 1
          breaker := some 2000 } 2000 0 scenarioTP scenarioPF
      = ({ allowed := false
           checks := ⟨false, false, true, true, true, true, true, true, true, true⟩
           failedChecks := [CheckName.circuitBreaker, CheckName.dailyLimits] },
          { initialized := true
            dailyStats := ⟨0, 1, 0, 0, -5100⟩
            lastTradeTime := some 0
            totalTrades := 0
            totalVolume := 0
            realizedPnL := -5100
            initialEquity := 100000
            peakEquity := 100000
            consecutiveLosses := 1
            breaker := some 2000 }) := by
  simp only [checkTrade, initializeUser, checkCircuitBreaker, checkDailyLimits,
    checkPositionSize, checkTotalExposure, checkConcentration, checkCooldown, checkDrawdown,
    checkConsecutiveLosses, checkSlippage, checkPriceDeviation, tradeValueOf, jsOr, jsNum,
    jsTruthy, jsDefault, scenarioTP, scenarioPF, defaultRiskConfig, createDailyStats,
    triggerCircuitBreaker, checkNamesInOrder, criticalCheck, CheckOutcomes.get,
    List.filter, List.isEmpty]
  norm_num

/-- C5 (counterexample): with unchanged external inputs, the scenario's
first `checkTrade` (which trips the circuit breaker) and an immediately
repeated `checkTrade` disagree: the first call's `circuitBreaker` check
passes, the second call's fails, so the per-check outcomes and failed-check
lists differ. -/
theorem riskCheck_idempotence_counterexample :
    (checkTrade defaultRiskConfig scenarioState 2000 0 scenarioTP
        scenarioPF).1.checks.circuitBreaker = true ∧
      (checkTrade defaultRiskConfig
          (checkTrade defaultRiskConfig scenarioState 2000 0 scenarioTP scenarioPF).2
          2000 0 scenarioTP scenarioPF).1.checks.circuitBreaker = false ∧
      (checkTrade defaultRiskConfig scenarioState 2000 0 scenarioTP scenarioPF).1
        ≠ (checkTrade defaultRiskConfig
            (checkTrade defaultRiskConfig scenarioState 2000 0 scenarioTP scenarioPF).2
            2000 0 scenarioTP scenarioPF).1 := by
  rw [scenario_checkTrade_eval]
  rw [scenario_checkTrade2_eval]
  refine ⟨rfl, rfl, ?_⟩
  intro h
  have := congrArg (fun r => r.checks.circuitBreaker) h
  simp at this

lemma initializeUser_initialized (s : RiskState) (e : Option ℚ) (t : ℤ) :
    (initializeUser s e t).initialized = true := by
  simp only [initializeUser]
  split
  · rename_i h
    exact h
  · rfl

lemma initializeUser_of_initialized {s : RiskState} (e : Option ℚ) (t : ℤ)
    (h : s.initialized = true) : initializeUser s e t = s := by
  simp [initializeUser, h]

lemma checkCircuitBreaker_fields (cfg : RiskConfig) (s : RiskState) (now : ℤ) :
    (checkCircuitBreaker cfg s now).2
      = { s with breaker := ((checkCircuitBreaker cfg s now).2).breaker } := by
  cases hb : s.breaker with
  | none =>
      have h2 : (checkCircuitBreaker cfg s now).2 = s := by
        simp [checkCircuitBreaker, hb]
      rw [h2]
  | some t =>
      simp only [checkCircuitBreaker, hb]
      split <;> rfl

lemma checkCircuitBreaker_true_breaker {cfg : RiskConfig} {s : RiskState} {now : ℤ}
    (h : (checkCircuitBreaker cfg s now).1 = true) :
    ((checkCircuitBreaker cfg s now).2).breaker = none := by
  cases hb : s.breaker with
  | none =>
      simp only [checkCircuitBreaker, hb]
  | some t =>
      simp only [checkCircuitBreaker, hb] at h ⊢
      by_cases hc : now - t < cfg.circuitBreakerDuration
      · rw [if_pos hc] at h
        simp at h
      · rw [if_neg hc]

lemma checkCircuitBreaker_none {cfg : RiskConfig} {s : RiskState} {now : ℤ}
    (h : s.breaker = none) : checkCircuitBreaker cfg s now = (true, s) := by
  simp [checkCircuitBreaker, h]

lemma checkDailyLimits_state {cfg : RiskConfig} {s : RiskState} {today : ℤ}
    {tp : TradeParams} (h : s.dailyStats.date = today) :
    (checkDailyLimits cfg s today tp).2 = s := by
  simp only [checkDailyLimits, h, ne_eq, not_true_eq_false, if_false]
  split_ifs <;> rfl

lemma checkDailyLimits_bool_congr {cfg : RiskConfig} {s t : RiskState} {today : ℤ}
    {tp : TradeParams} (h1 : t.dailyStats = s.dailyStats)
    (h2 : t.initialEquity = s.initialEquity) :
    (checkDailyLimits cfg t today tp).1 = (checkDailyLimits cfg s today tp).1 := by
  simp only [checkDailyLimits, h1, h2]
  split_ifs <;> rfl

lemma checkCooldown_congr {cfg : RiskConfig} {s t : RiskState} {now : ℤ}
    (h : t.lastTradeTime = s.lastTradeTime) :
    checkCooldown cfg t now = checkCooldown cfg s now := by
  simp only [checkCooldown, h]

lemma checkConsecutiveLosses_congr {cfg : RiskConfig} {s t : RiskState}
    (h : t.consecutiveLosses = s.consecutiveLosses) :
    checkConsecutiveLosses cfg t = checkConsecutiveLosses cfg s := by
  simp only [checkConsecutiveLosses, h]

lemma checkDrawdown_fields (cfg : RiskConfig) (s : RiskState) (pf : Portfolio) :
    (checkDrawdown cfg s pf).2
      = { s with peakEquity := ((checkDrawdown cfg s pf).2).peakEquity } := by
  simp only [checkDrawdown]
  split_ifs <;> rfl

lemma checkDrawdown_idem {cfg : RiskConfig} {s : RiskState} {pf : Portfolio}
    (hdd : 0 < cfg.maxDrawdownPercent) (h : (checkDrawdown cfg s pf).1 = true) :
    checkDrawdown cfg (checkDrawdown cfg s pf).2 pf = (true, (checkDrawdown cfg s pf).2) := by
  by_cases hup : jsOr pf.totalValue 0 > jsNum s.peakEquity (jsOr pf.totalValue 0)
  · have hs' : (checkDrawdown cfg s pf).2 = { s with peakEquity := jsOr pf.totalValue 0 } := by
      simp only [checkDrawdown, if_pos hup]
    rw [hs']
    simp only [checkDrawdown, jsNum, ite_self, gt_iff_lt, lt_irrefl, if_false, sub_self,
      zero_div, zero_mul, ge_iff_le]
    rw [if_neg (not_le.mpr hdd)]
  · have hs' : (checkDrawdown cfg s pf).2 = s := by
      simp only [checkDrawdown, if_neg hup]
      split_ifs <;> rfl
    rw [hs']
    simp only [checkDrawdown, if_neg hup] at h ⊢
    by_cases hp : (jsNum s.peakEquity (jsOr pf.totalValue 0) - jsOr pf.totalValue 0) /
        jsNum s.peakEquity (jsOr pf.totalValue 0) * 100 ≥ cfg.maxDrawdownPercent
    · rw [if_pos hp] at h
      simp at h
    · rw [if_neg hp]

/-- C5 (amended): an immediately repeated `checkTrade` under unchanged
inputs returns the same result — and leaves the state fixed — provided the
first call was allowed, the daily-stats date is current, and
`maxDrawdownPercent` is positive.  (When the first call fails a critical
check it triggers the breaker, and the repeat then also fails
`circuitBreaker`, so results differ; the drawdown peak update likewise makes
a repeat differ when `maxDrawdownPercent ≤ 0`.) -/
theorem riskCheck_idempotent_when_allowed (cfg : RiskConfig) (s0 : RiskState)
    (now today : ℤ) (tp : TradeParams) (pf : Portfolio)
    (hdd : 0 < cfg.maxDrawdownPercent)
    (hdate : (initializeUser s0 pf.totalValue today).dailyStats.date = today)
    (hall : (checkTrade cfg s0 now today tp pf).1.allowed = true) :
    checkTrade cfg (checkTrade cfg s0 now today tp pf).2 now today tp pf
      = checkTrade cfg s0 now today tp pf := by
  have hn := (checkTrade_allowed_iff cfg s0 now today tp pf).mp hall
  have hb1 := hn CheckName.circuitBreaker
  have hb2 := hn CheckName.dailyLimits
  have hb3 := hn CheckName.positionSize
  have hb4 := hn CheckName.exposure
  have hb5 := hn CheckName.concentration
  have hb6 := hn CheckName.cooldown
  have hb7 := hn CheckName.drawdown
  have hb8 := hn CheckName.consecutiveLosses
  have hb9 := hn CheckName.slippage
  have hb10 := hn CheckName.priceDeviation
  simp only [checkTrade, CheckOutcomes.get] at hb1 hb2 hb3 hb4 hb5 hb6 hb7 hb8 hb9 hb10
  have hs2fields := checkCircuitBreaker_fields cfg (initializeUser s0 pf.totalValue today) now
  have hs2b := checkCircuitBreaker_true_breaker hb1
  have hs3 : (checkDailyLimits cfg
        (checkCircuitBreaker cfg (initializeUser s0 pf.totalValue today) now).2 today tp).2
      = (checkCircuitBreaker cfg (initializeUser s0 pf.totalValue today) now).2 :=
    checkDailyLimits_state (by rw [hs2fields]; exact hdate)
  rw [hs3] at hb6 hb7 hb8
  have hs4fields := checkDrawdown_fields cfg
    (checkCircuitBreaker cfg (initializeUser s0 pf.totalValue today) now).2 pf
  have hs4init : ((checkDrawdown cfg
      (checkCircuitBreaker cfg (initializeUser s0 pf.totalValue today) now).2 pf).2).initialized
      = true := by
    rw [hs4fields, hs2fields]
    exact initializeUser_initialized s0 pf.totalValue today
  have hs4b : ((checkDrawdown cfg
      (checkCircuitBreaker cfg (initializeUser s0 pf.totalValue today) now).2 pf).2).breaker
      = none := by
    rw [hs4fields]
    exact hs2b
  have hs4daily : ((checkDrawdown cfg
      (checkCircuitBreaker cfg (initializeUser s0 pf.totalValue today) now).2 pf).2).dailyStats
      = ((checkCircuitBreaker cfg (initializeUser s0 pf.totalValue today) now).2).dailyStats := by
    rw [hs4fields]
  have hs4equity : ((checkDrawdown cfg
      (checkCircuitBreaker cfg (initializeUser s0 pf.totalValue today) now).2 pf).2).initialEquity
      = ((checkCircuitBreaker cfg (initializeUser s0 pf.totalValue today) now).2).initialEquity := by
    rw [hs4fields]
  have hs4last : ((checkDrawdown cfg
      (checkCircuitBreaker cfg (initializeUser s0 pf.totalValue today) now).2 pf).2).lastTradeTime
      = ((checkCircuitBreaker cfg (initializeUser s0 pf.totalValue today) now).2).lastTradeTime := by
    rw [hs4fields]
  have hInit2 := initializeUser_of_initialized pf.totalValue today hs4init
  have hCB2 := @checkCircuitBreaker_none cfg _ now hs4b
  have hDL2state : (checkDailyLimits cfg (checkDrawdown cfg
        (checkCircuitBreaker cfg (initializeUser s0 pf.totalValue today) now).2 pf).2 today
          tp).2
      = (checkDrawdown cfg
          (checkCircuitBreaker cfg (initializeUser s0 pf.totalValue today) now).2 pf).2 :=
    checkDailyLimits_state (by rw [hs4fields, hs2fields]; exact hdate)
  have hDL2bool : (checkDailyLimits cfg (checkDrawdown cfg
        (checkCircuitBreaker cfg (initializeUser s0 pf.totalValue today) now).2 pf).2 today
          tp).1
      = true := by
    rw [checkDailyLimits_bool_congr hs4daily hs4equity]
    exact hb2
  have hCD2 : checkCooldown cfg (checkDrawdown cfg
        (checkCircuitBreaker cfg (initializeUser s0 pf.totalValue today) now).2 pf).2 now
      = true := by
    rw [checkCooldown_congr hs4last]
    exact hb6
  have hDD2 := checkDrawdown_idem hdd hb7
  have hfst : checkTrade cfg s0 now today tp pf
      = ({ allowed := true
           checks := ⟨true, true, true, true, true, true, true, true, true, true⟩
           failedChecks := [] },
          (checkDrawdown cfg
            (checkCircuitBreaker cfg (initializeUser s0 pf.totalValue today) now).2 pf).2) := by
    simp only [checkTrade, CheckOutcomes.get]
    rw [hs3]
    rw [hb1, hb2, hb3, hb4, hb5, hb6, hb7, hb8, hb9, hb10]
    simp [checkNamesInOrder, List.filter]
  rw [hfst]
  simp only [checkTrade, CheckOutcomes.get]
  rw [hInit2, hCB2]
  simp only []
  rw [hDL2state, hDL2bool, hCD2, hDD2]
  simp only [hb3, hb4, hb5, hb9, hb10]
  rw [hb8]
  simp [checkNamesInOrder, List.filter]

/-- Witness for `riskCheck_idempotent_when_allowed`: a calm user (no losses,
equity 100000) is allowed, and the repeated check returns the identical
result. -/
theorem riskCheck_idempotent_when_allowed_witness :
    (0 : ℚ) < defaultRiskConfig.maxDrawdownPercent ∧
      (initializeUser
          { initialized := true, dailyStats := ⟨0, 0, 0, 0, 0⟩, lastTradeTime := none
            totalTrades := 0, totalVolume := 0, realizedPnL := 0, initialEquity := 100000
            peakEquity := 100000, consecutiveLosses := 0, breaker := none }
          scenarioPF.totalValue 0).dailyStats.date = 0 ∧
      (checkTrade defaultRiskConfig
          { initialized := true, dailyStats := ⟨0, 0, 0, 0, 0⟩, lastTradeTime := none
            totalTrades := 0, totalVolume := 0, realizedPnL := 0, initialEquity := 100000
            peakEquity := 100000, consecutiveLosses := 0, breaker := none }
          2000 0 scenarioTP scenarioPF).1.allowed = true ∧
      checkTrade defaultRiskConfig
          (checkTrade defaultRiskConfig
            { initialized := true, dailyStats := ⟨0, 0, 0, 0, 0⟩, lastTradeTime := none
              totalTrades := 0, totalVolume := 0, realizedPnL := 0, initialEquity := 100000
              peakEquity := 100000, consecutiveLosses := 0, breaker := none }
            2000 0 scenarioTP scenarioPF).2 2000 0 scenarioTP scenarioPF
        = checkTrade defaultRiskConfig
            { initialized := true, dailyStats := ⟨0, 0, 0, 0, 0⟩, lastTradeTime := none
              totalTrades := 0, totalVolume := 0, realizedPnL := 0, initialEquity := 100000
              peakEquity := 100000, consecutiveLosses := 0, breaker := none }
            2000 0 scenarioTP scenarioPF := by
  have hdd : (0 : ℚ) < defaultRiskConfig.maxDrawdownPercent := by
    norm_num [defaultRiskConfig]
  have hdate : (initializeUser
      { initialized := true, dailyStats := ⟨0, 0, 0, 0, 0⟩, lastTradeTime := none
        totalTrades := 0, totalVolume := 0, realizedPnL := 0, initialEquity := 100000
        peakEquity := 100000, consecutiveLosses := 0, breaker := none }
      scenarioPF.totalValue 0).dailyStats.date = 0 := by
    simp [initializeUser]
  have hall : (checkTrade defaultRiskConfig
      { initialized := true, dailyStats := ⟨0, 0, 0, 0, 0⟩, lastTradeTime := none
        totalTrades := 0, totalVolume := 0, realizedPnL := 0, initialEquity := 100000
        peakEquity := 100000, consecutiveLosses := 0, breaker := none }
      2000 0 scenarioTP scenarioPF).1.allowed = true := by
    simp only [checkTrade, initializeUser, checkCircuitBreaker, checkDailyLimits,
      checkPositionSize, checkTotalExposure, checkConcentration, checkCooldown, checkDrawdown,
      checkConsecutiveLosses, checkSlippage, checkPriceDeviation, tradeValueOf, jsOr, jsNum,
      jsTruthy, jsDefault, scenarioTP, scenarioPF, defaultRiskConfig, createDailyStats,
      triggerCircuitBreaker, checkNamesInOrder, criticalCheck, CheckOutcomes.get,
      List.filter, List.isEmpty]
    norm_num
  exact ⟨hdd, hdate, hall,
    riskCheck_idempotent_when_allowed defaultRiskConfig _ 2000 0 scenarioTP scenarioPF hdd
      hdate hall⟩

/-- C10 (counterexample): the `summary` of a run is not identical across two
runs, because it embeds the wall-clock `duration = endTime − startTime`:
two runs of the same config/strategy/data with different wall-clock
durations produce different summaries. -/
theorem backtest_summary_duration_counterexample :
    (run defaultBTConfig (fun _ => 0) (fun _ => ⟨"hold", none, none, none, none⟩)
        [] 0).summary
      ≠ (run defaultBTConfig (fun _ => 0) (fun _ => ⟨"hold", none, none, none, none⟩)
          [] 1).summary := by
  intro h
  have hdur := congrArg BTSummary.duration h
  exact absurd (hdur : (0 : ℤ) = 1) (by decide)

/-- C10 (amended): backtesting is deterministic up to the wall-clock
`duration` field of the summary — for every config, square-root function,
deterministic strategy and candle list, two runs of `BacktestEngine.run`
produce identical `trades`, `equityCurve` and `signals`, and summaries that
agree on every field except `duration`. -/
theorem backtest_deterministic (cfg : BTConfig) (sqrtFn : ℚ → ℚ)
    (strategy : MarketData → Signal) (data : List BTCandle) (d1 d2 : ℤ) :
    (run cfg sqrtFn strategy data d1).trades = (run cfg sqrtFn strategy data d2).trades ∧
      (run cfg sqrtFn strategy data d1).equityCurve
        = (run cfg sqrtFn strategy data d2).equityCurve ∧
      (run cfg sqrtFn strategy data d1).signals
        = (run cfg sqrtFn strategy data d2).signals ∧
      (run cfg sqrtFn strategy data d1).summary
        = { (run cfg sqrtFn strategy data d2).summary with duration := d1 } :=
  ⟨rfl, rfl, rfl, rfl⟩

end Fitcher
